import Mathlib

/-!
Relay controller (`relay_controller.c`): shallow embedding and verification.

The C program is a single-threaded polling state machine for an AVR part.
The embedding makes every interaction with the outside world explicit:

* `Env` is the platform and the input trace: the header constants that
  `relay_controller.c` uses but does not define, the successive values of the
  volatile register `PORTA.IN`, the successive results of `clock()`, and the
  successive values that `va_arg` yields when `is_high` reads past the
  arguments it was really given.
* `Machine` is the mutable state: the global `fault_count`, the port registers
  written by the program and three cursors into the input trace.
* Every `while` loop is a recursive function on a fuel argument that bounds the
  number of evaluations of the loop condition.  A handler yields `Res.ret` when
  it returns within the fuel and `Res.spin` (with the machine state reached so
  far) when it is still looping.
* `double` durations are exact fractions (`Seconds`); `clock_t` values are
  integers whose difference does not wrap.  A reading that falls on a rounding
  boundary of the `double` quotient, or a wrapped difference, is outside the
  model; the general theorems below do not depend on the value of a time
  comparison.
* `enum State` is its underlying integer, so that the final `else` of
  `state_machine` is a real branch of the model.
* The handlers call `is_high(GFI_PIN)` and `is_high(OPENWRT_PIN, EBIKE_PIN)`:
  the first argument is the iteration count `num` of `is_high`, so the first
  call makes `GFI_PIN` reads of `va_arg` with no argument to read.  The
  value of such a read is taken from the trace (`Env.vaJunk`), and the
  general theorems below hold for all such values.  The C standard leaves
  this read undefined and a compiler may lower it to a trap, after which the
  poll does not return: what is stated after a poll describes the source text
  for a given value of the read, and invariants and frame statements hold for
  a run that stops at a poll as well.
-/

namespace RelayController

/-! ## Platform and machine state -/

/-- The platform constants missing from the source (`avr/io.h`, `time.h`) and the input trace. -/
structure Env where
  /-- The constant `CLOCKS_PER_SEC` of `time.h`. -/
  CLOCKS_PER_SEC : Nat
  /-- The bit masks `PIN1_bm` .. `PIN7_bm` and `PORT_PULLUPEN_bm` of `avr/io.h`. -/
  PIN1_bm : Nat
  PIN2_bm : Nat
  PIN3_bm : Nat
  PIN4_bm : Nat
  PIN5_bm : Nat
  PIN6_bm : Nat
  PIN7_bm : Nat
  PORT_PULLUPEN_bm : Nat
  /-- The value of the `k`-th read of the volatile register `PORTA.IN`. -/
  portIn : Nat → Nat
  /-- The value returned by the `k`-th call of `clock()`. -/
  clock : Nat → Int
  /-- The value yielded by the `k`-th `va_arg` that reads past the arguments of the call. -/
  vaJunk : Nat → Nat

/-- The mutable state of the program. -/
structure Machine where
  /-- The global `volatile uint8_t fault_count`. -/
  fault_count : Nat
  /-- The registers `PORTA.OUT`, `PORTA.DIR` and `PORTA.PINnCTRL`. -/
  OUT : Nat
  DIR : Nat
  PIN3CTRL : Nat
  PIN4CTRL : Nat
  PIN6CTRL : Nat
  PIN7CTRL : Nat
  /-- Number of reads of `PORTA.IN` made so far. -/
  reads : Nat
  /-- Number of calls of `clock()` made so far. -/
  clocks : Nat
  /-- Number of `va_arg` reads past the supplied arguments made so far. -/
  vareads : Nat
deriving DecidableEq

/-- The result of running a function that contains a `while` loop. -/
inductive Res (α : Type) where
  /-- The function returned `a`, leaving the machine in state `m`. -/
  | ret (a : α) (m : Machine)
  /-- The fuel ran out inside a loop, the machine being in state `m`. -/
  | spin (m : Machine)
deriving DecidableEq

/-- A duration in seconds as an exact fraction `num / den` (a `double` in the source). -/
structure Seconds where
  num : Int
  den : Nat
deriving DecidableEq

/-- The comparison `a < b` of two durations (denominators are non-negative). -/
def Seconds.lt (a b : Seconds) : Bool :=
  decide (a.num * (b.den : Int) < b.num * (a.den : Int))

/-! ## Constants (`relay_controller.c`, lines 8-35) -/

/-- Source: `const double RELAY_POWER_TIME = 0.15;` -/
def RELAY_POWER_TIME : Seconds := ⟨15, 100⟩
/-- Source: `const double GROUND_FAULT_DELAY_TIME = 15.0;` -/
def GROUND_FAULT_DELAY_TIME : Seconds := ⟨15, 1⟩
/-- Source: `const double PROBATION_TIME = 10.0;` -/
def PROBATION_TIME : Seconds := ⟨10, 1⟩
/-- Source: `const int FAULT_LIMIT = 20;` -/
def FAULT_LIMIT : Int := 20

/-- The C expression `a < b` on `int`: `1` when it holds and `0` otherwise. -/
def c_lt (a b : Int) : Nat := if a < b then 1 else 0

/-- Source: `const uint8_t OPENWRT_PIN = (1 < 0x01);` -/
def OPENWRT_PIN : Nat := c_lt 1 0x01 % 256
/-- Source: `const uint8_t EBIKE_PIN = (1 < 0x02);` -/
def EBIKE_PIN : Nat := c_lt 1 0x02 % 256
/-- Source: `const uint8_t RELAY_ON_PIN = (1 < 0x03);` -/
def RELAY_ON_PIN : Nat := c_lt 1 0x03 % 256
/-- Source: `const uint8_t RELAY_OFF_PIN = (1 < 0x04);` -/
def RELAY_OFF_PIN : Nat := c_lt 1 0x04 % 256
/-- Source: `const uint8_t GFI_PIN = (1 < 0x05);` -/
def GFI_PIN : Nat := c_lt 1 0x05 % 256
/-- Source: `const uint8_t OPENWRT_STATUS_PIN = (1 < 0x06);` -/
def OPENWRT_STATUS_PIN : Nat := c_lt 1 0x06 % 256
/-- Source: `const uint8_t EBIKE_STATUS_PIN = (1 < 0x07);` -/
def EBIKE_STATUS_PIN : Nat := c_lt 1 0x07 % 256

/-- The integer underlying `enum State`. -/
abbrev State := Nat

abbrev START : State := 0
abbrev RELAY_OFF : State := 1
abbrev RELAY_ENABLE : State := 2
abbrev RELAY_ON : State := 3
abbrev RELAY_DISABLE : State := 4
abbrev SOFT_GROUND_FAULT : State := 5
abbrev HARD_GROUND_FAULT : State := 6
abbrev PROBATIONARY_RELAY_ON : State := 7

/-! ## Register and input primitives -/

/-- The 8-bit update `reg &= ~mask`. -/
def clear_bits (reg mask : Nat) : Nat := (reg % 256) &&& (255 ^^^ (mask % 256))

/-- The 8-bit update `reg |= mask`. -/
def set_bits (reg mask : Nat) : Nat := (reg % 256) ||| (mask % 256)

/-- One read of `PORTA.IN`. -/
def read_port (env : Env) (m : Machine) : Nat × Machine :=
  (env.portIn m.reads % 256, { m with reads := m.reads + 1 })

/-- One call of `clock()`. -/
def clock (env : Env) (m : Machine) : Int × Machine :=
  (env.clock m.clocks, { m with clocks := m.clocks + 1 })

/-- One `va_arg(valist, uint8_t)`: the next supplied argument when there is one, and otherwise
whatever the platform yields for a read past the end of the argument list. -/
def va_arg (env : Env) (args : List Nat) (m : Machine) : Nat × List Nat × Machine :=
  match args with
  | a :: rest => (a % 256, rest, m)
  | [] => (env.vaJunk m.vareads % 256, [], { m with vareads := m.vareads + 1 })

/-! ## Pin functions (lines 43-110) -/

/-- The `for (i = 0; i < num; i++)` loop of `is_high`, with `n` iterations left. -/
def is_high_loop (env : Env) : Nat → List Nat → Bool → Machine → Bool × Machine
  | 0, _, output, m => (output, m)
  | n + 1, args, output, m =>
    let (inp, m1) := read_port env m
    let (pin, rest, m2) := va_arg env args m1
    is_high_loop env n rest (if inp &&& pin ≠ 0 then false else output) m2

/-- Source: `bool is_high(int num, ...)`: `args` are the variadic arguments of the call. -/
def is_high (env : Env) (m : Machine) (num : Int) (args : List Nat) : Bool × Machine :=
  is_high_loop env num.toNat args true m

/-- Source: `void start_signal(uint8_t pin)`. -/
def start_signal (pin : Nat) (m : Machine) : Machine :=
  if pin = RELAY_ON_PIN then { m with OUT := clear_bits m.OUT RELAY_ON_PIN }
  else if pin = RELAY_OFF_PIN then { m with OUT := clear_bits m.OUT RELAY_OFF_PIN }
  else m

/-- Source: `void stop_signal(uint8_t pin)`. -/
def stop_signal (pin : Nat) (m : Machine) : Machine :=
  if pin = RELAY_ON_PIN then { m with OUT := set_bits m.OUT RELAY_ON_PIN }
  else if pin = RELAY_OFF_PIN then { m with OUT := set_bits m.OUT RELAY_OFF_PIN }
  else m

/-- Source: `void update_status_pins()`. -/
def update_status_pins (env : Env) (m : Machine) : Machine :=
  let (in1, m1) := read_port env m
  let m2 : Machine :=
    if in1 &&& OPENWRT_PIN ≠ 0 then { m1 with OUT := set_bits m1.OUT OPENWRT_STATUS_PIN }
    else { m1 with OUT := clear_bits m1.OUT OPENWRT_STATUS_PIN }
  let (in2, m3) := read_port env m2
  if in2 &&& EBIKE_PIN ≠ 0 then { m3 with OUT := set_bits m3.OUT EBIKE_STATUS_PIN }
  else { m3 with OUT := clear_bits m3.OUT EBIKE_STATUS_PIN }

/-! ## Helper functions (lines 118-124) -/

/-- Source: `double get_time_diff(clock_t tic, clock_t toc)`: `(toc - tic) / CLOCKS_PER_SEC`. -/
def get_time_diff (env : Env) (tic toc : Int) : Seconds :=
  ⟨toc - tic, env.CLOCKS_PER_SEC⟩

/-! ## State functions (lines 132-364) -/

/-- Source: `enum State start(void)`. -/
def start (env : Env) (m : Machine) : State × Machine :=
  let m : Machine := { m with fault_count := 0 }
  let m : Machine := { m with DIR := set_bits m.DIR env.PIN1_bm }
  let m : Machine := { m with DIR := set_bits m.DIR env.PIN2_bm }
  let m : Machine := { m with DIR := set_bits m.DIR env.PIN5_bm }
  let m : Machine := { m with DIR := clear_bits m.DIR env.PIN3_bm }
  let m : Machine := { m with DIR := clear_bits m.DIR env.PIN4_bm }
  let m : Machine := { m with DIR := clear_bits m.DIR env.PIN6_bm }
  let m : Machine := { m with DIR := clear_bits m.DIR env.PIN7_bm }
  let m : Machine := { m with PIN3CTRL := env.PORT_PULLUPEN_bm % 256 }
  let m : Machine := { m with PIN4CTRL := env.PORT_PULLUPEN_bm % 256 }
  let m : Machine := { m with PIN6CTRL := env.PORT_PULLUPEN_bm % 256 }
  let m : Machine := { m with PIN7CTRL := env.PORT_PULLUPEN_bm % 256 }
  (RELAY_OFF, m)

/-- Source: `enum State relay_off(void)`: the `while (1)` loop. -/
def relay_off (env : Env) : Nat → Machine → Res State
  | 0, m => .spin m
  | fuel + 1, m =>
    let (en, m1) := is_high env m OPENWRT_PIN [EBIKE_PIN]
    if en then .ret RELAY_ENABLE m1 else relay_off env fuel m1

/-- The coil window shared by `relay_enable` and `relay_disable`:
`while (get_time_diff(tic, toc) < RELAY_POWER_TIME) { if (!is_high(GFI_PIN)) { stop_signal(pin);
return SOFT_GROUND_FAULT; } toc = clock(); }`.  The result `some s` is an early `return s` from the
enclosing function and `none` is the normal end of the loop. -/
def coil_window (env : Env) (pin : Nat) (tic : Int) : Nat → Int → Machine → Res (Option State)
  | 0, _, m => .spin m
  | fuel + 1, toc, m =>
    if (get_time_diff env tic toc).lt RELAY_POWER_TIME then
      let (ok, m1) := is_high env m GFI_PIN []
      if !ok then .ret (some SOFT_GROUND_FAULT) (stop_signal pin m1)
      else
        let (toc1, m2) := clock env m1
        coil_window env pin tic fuel toc1 m2
    else .ret none m

/-- Source: `enum State relay_enable(void)`. -/
def relay_enable (env : Env) (fuel : Nat) (m : Machine) : Res State :=
  let m := start_signal RELAY_OFF_PIN m
  let (tic, m) := clock env m
  let (toc, m) := clock env m
  match coil_window env RELAY_OFF_PIN tic fuel toc m with
  | .spin m => .spin m
  | .ret (some s) m => .ret s m
  | .ret none m =>
    let m := stop_signal RELAY_OFF_PIN m
    let m := start_signal RELAY_ON_PIN m
    let (tic, m) := clock env m
    let (toc, m) := clock env m
    match coil_window env RELAY_ON_PIN tic fuel toc m with
    | .spin m => .spin m
    | .ret (some s) m => .ret s m
    | .ret none m =>
      let m := stop_signal RELAY_ON_PIN m
      if m.fault_count = 0 then .ret RELAY_ON m else .ret PROBATIONARY_RELAY_ON m

/-- Source: `enum State relay_on(void)`: the `while (is_high(OPENWRT_PIN, EBIKE_PIN))` loop. -/
def relay_on (env : Env) : Nat → Machine → Res State
  | 0, m => .spin m
  | fuel + 1, m =>
    let (en, m1) := is_high env m OPENWRT_PIN [EBIKE_PIN]
    if en then
      let (gfi, m2) := is_high env m1 GFI_PIN []
      if gfi then .ret SOFT_GROUND_FAULT m2 else relay_on env fuel m2
    else .ret RELAY_DISABLE m1

/-- Source: `enum State relay_disable(void)`. -/
def relay_disable (env : Env) (fuel : Nat) (m : Machine) : Res State :=
  let m := start_signal RELAY_ON_PIN m
  let (tic, m) := clock env m
  let (toc, m) := clock env m
  match coil_window env RELAY_ON_PIN tic fuel toc m with
  | .spin m => .spin m
  | .ret (some s) m => .ret s m
  | .ret none m =>
    let m := stop_signal RELAY_ON_PIN m
    let m := start_signal RELAY_OFF_PIN m
    let (tic, m) := clock env m
    let (toc, m) := clock env m
    match coil_window env RELAY_OFF_PIN tic fuel toc m with
    | .spin m => .spin m
    | .ret (some s) m => .ret s m
    | .ret none m =>
      let m := stop_signal RELAY_OFF_PIN m
      .ret RELAY_OFF m

/-- The loop of `soft_ground_fault`:
`while (get_time_diff(tic, toc) < GROUND_FAULT_DELAY_TIME) { toc = clock(); }`. -/
def fault_delay (env : Env) (tic : Int) : Nat → Int → Machine → Res Unit
  | 0, _, m => .spin m
  | fuel + 1, toc, m =>
    if (get_time_diff env tic toc).lt GROUND_FAULT_DELAY_TIME then
      let (toc1, m1) := clock env m
      fault_delay env tic fuel toc1 m1
    else .ret () m

/-- Source: `enum State soft_ground_fault(void)`. -/
def soft_ground_fault (env : Env) (fuel : Nat) (m : Machine) : Res State :=
  let m : Machine := { m with fault_count := (m.fault_count + 1) % 256 }
  if (m.fault_count : Int) ≥ FAULT_LIMIT then .ret HARD_GROUND_FAULT m
  else
    let (tic, m) := clock env m
    let (toc, m) := clock env m
    match fault_delay env tic fuel toc m with
    | .spin m => .spin m
    | .ret _ m => .ret RELAY_ENABLE m

/-- The loop of `probationary_relay_on` (neither `tic` nor `toc` is assigned in its body). -/
def probation_loop (env : Env) (tic toc : Int) : Nat → Machine → Res (Option State)
  | 0, m => .spin m
  | fuel + 1, m =>
    if (get_time_diff env tic toc).lt PROBATION_TIME then
      let (en, m1) := is_high env m OPENWRT_PIN [EBIKE_PIN]
      if !en then .ret (some RELAY_DISABLE) { m1 with fault_count := 0 }
      else
        let (ok, m2) := is_high env m1 GFI_PIN []
        if !ok then .ret (some SOFT_GROUND_FAULT) m2
        else probation_loop env tic toc fuel m2
    else .ret none m

/-- Source: `enum State probationary_relay_on(void)`. -/
def probationary_relay_on (env : Env) (fuel : Nat) (m : Machine) : Res State :=
  let (tic, m) := clock env m
  let (toc, m) := clock env m
  match probation_loop env tic toc fuel m with
  | .spin m => .spin m
  | .ret (some s) m => .ret s m
  | .ret none m => .ret RELAY_ON { m with fault_count := 0 }

/-- Source: `void hard_ground_fault(void)`: `while (1) { ; }`. -/
def hard_ground_fault : Nat → Machine → Res Unit
  | 0, m => .spin m
  | fuel + 1, m => hard_ground_fault fuel m

/-! ## The dispatcher (lines 370-394) -/

/-- Where an execution of `state_machine` stands. -/
inductive Run where
  /-- At the head of the `while (1)` loop, about to dispatch on `current_state`. -/
  | head (current_state : State) (m : Machine)
  /-- Still inside the handler called for `current_state`. -/
  | inside (current_state : State) (m : Machine)
  /-- The final `else` was taken and `state_machine` returned to `main`. -/
  | exited (m : Machine)
deriving DecidableEq

/-- The assignment `current_state = handler();` for a handler result. -/
def assign (current_state : State) : Res State → Run
  | .ret s m => .head s m
  | .spin m => .inside current_state m

/-- The body of the `while (1)` loop of `state_machine`: one dispatch. -/
def dispatch (env : Env) (fuel : Nat) (current_state : State) (m : Machine) : Run :=
  if current_state = START then
    let (s, m1) := start env m
    .head s m1
  else if current_state = RELAY_OFF then assign current_state (relay_off env fuel m)
  else if current_state = RELAY_ENABLE then assign current_state (relay_enable env fuel m)
  else if current_state = RELAY_ON then assign current_state (relay_on env fuel m)
  else if current_state = RELAY_DISABLE then assign current_state (relay_disable env fuel m)
  else if current_state = SOFT_GROUND_FAULT then
    assign current_state (soft_ground_fault env fuel m)
  else if current_state = HARD_GROUND_FAULT then
    match hard_ground_fault fuel m with
    | .ret _ m1 => .head current_state m1
    | .spin m1 => .inside current_state m1
  else if current_state = PROBATIONARY_RELAY_ON then
    assign current_state (probationary_relay_on env fuel m)
  else .exited m

/-- The `while (1)` loop of `state_machine`, run for at most `n` dispatches. -/
def state_machine_from (env : Env) (fuel : Nat) : Nat → State → Machine → Run
  | 0, current_state, m => .head current_state m
  | n + 1, current_state, m =>
    match dispatch env fuel current_state m with
    | .head s m1 => state_machine_from env fuel n s m1
    | r => r

/-- The machine at program start: the C global `fault_count` is zero-initialised and nothing has
been read yet; the port registers hold whatever `regs` holds. -/
def power_on (regs : Machine) : Machine :=
  { regs with fault_count := 0, reads := 0, clocks := 0, vareads := 0 }

/-- Source: `void state_machine(void)` run for at most `n` dispatches: `current_state = START`. -/
def state_machine (env : Env) (fuel n : Nat) (regs : Machine) : Run :=
  state_machine_from env fuel n START (power_on regs)

/-- The machine state of a run. -/
def Run.machine : Run → Machine
  | .head _ m => m
  | .inside _ m => m
  | .exited m => m

/-- The machine state of a handler result. -/
def Res.machine {α : Type} : Res α → Machine
  | .ret _ m => m
  | .spin m => m

/-- A handler result returns, if it returns at all, one of the states of `allowed`. -/
def Res.returns_in (allowed : List State) : Res State → Prop
  | .ret s _ => s ∈ allowed
  | .spin _ => True

/-- A run has not left the dispatcher through its final `else`. -/
def Run.not_exited : Run → Prop
  | .exited _ => False
  | _ => True

/-- The value of `current_state` in a run that is at the head of the dispatcher loop. -/
def Run.at_head : Run → Option State
  | .head s _ => some s
  | _ => none

/-- The invariant of the dispatcher loop: `current_state` is one of the eight enumerators, the
counter is at most `FAULT_LIMIT`, and it is below `FAULT_LIMIT` outside `HARD_GROUND_FAULT`. -/
def Run.inv : Run → Prop
  | .head s m => s ≤ 7 ∧ (m.fault_count : Int) ≤ FAULT_LIMIT ∧
      (s ≠ HARD_GROUND_FAULT → (m.fault_count : Int) < FAULT_LIMIT)
  | .inside _ m => (m.fault_count : Int) ≤ FAULT_LIMIT
  | .exited _ => False

/-- The value of `current_state` in a run that is still inside the dispatcher loop. -/
def Run.state : Run → Option State
  | .head s _ => some s
  | .inside s _ => some s
  | .exited _ => none

/-- A trace on which every poll of the ground-fault line hits: all port bits read as set and the
out-of-range `va_arg` reads yield the mask 1.  The clock, at one tick per second, yields the same
reading four times and a reading fifteen seconds later the fifth time, and so on in periods of
five readings. -/
def fault_trace : Env where
  CLOCKS_PER_SEC := 1
  PIN1_bm := 0x02
  PIN2_bm := 0x04
  PIN3_bm := 0x08
  PIN4_bm := 0x10
  PIN5_bm := 0x20
  PIN6_bm := 0x40
  PIN7_bm := 0x80
  PORT_PULLUPEN_bm := 0x08
  portIn := fun _ => 255
  clock := fun k => ((k / 5 + (if k % 5 = 4 then 1 else 0) : Nat) : Int) * 15
  vaJunk := fun _ => 1

/-- A machine whose registers and cursors are all zero. -/
def zero_machine : Machine := ⟨0, 0, 0, 0, 0, 0, 0, 0, 0, 0⟩

/-- The result of the poll `is_high(GFI_PIN)` made when `r` reads of `PORTA.IN` and `v`
out-of-range `va_arg` reads have been made. -/
def gfi_poll (env : Env) (r v : Nat) : Bool :=
  (is_high env { zero_machine with reads := r, vareads := v } GFI_PIN []).1

/-- The machine after `polls` further polls of the ground-fault line and `ticks` further calls of
`clock()`. -/
def Machine.advance (m : Machine) (polls ticks : Nat) : Machine :=
  { m with reads := m.reads + polls, vareads := m.vareads + polls, clocks := m.clocks + ticks }

/-- The loop condition of a coil window at its `i`-th evaluation, when `tic` was the `c`-th
reading of the clock: `get_time_diff(tic, toc) < RELAY_POWER_TIME`. -/
def window_open (env : Env) (c i : Nat) : Bool :=
  (get_time_diff env (env.clock c) (env.clock (c + 1 + i))).lt RELAY_POWER_TIME

/-- A coil window entered at clock cursor `c` and poll cursors `r`, `v` makes `n` polls that all
report no ground fault, and then ends because `RELAY_POWER_TIME` has elapsed. -/
def window_clean (env : Env) (c r v n : Nat) : Prop :=
  (∀ i < n, window_open env c i = true ∧ gfi_poll env (r + i) (v + i) = true) ∧
    window_open env c n = false

/-- A coil window entered at clock cursor `c` and poll cursors `r`, `v` makes `n` polls that
report no ground fault and is still open when the next poll reports one. -/
def window_fault (env : Env) (c r v n : Nat) : Prop :=
  (∀ i < n, window_open env c i = true ∧ gfi_poll env (r + i) (v + i) = true) ∧
    window_open env c n = true ∧ gfi_poll env (r + n) (v + n) = false

/-- The loop condition of the delay of `soft_ground_fault` at its `i`-th evaluation, when `tic`
was the `c`-th reading of the clock: `get_time_diff(tic, toc) < GROUND_FAULT_DELAY_TIME`. -/
def delay_open (env : Env) (c i : Nat) : Bool :=
  (get_time_diff env (env.clock c) (env.clock (c + 1 + i))).lt GROUND_FAULT_DELAY_TIME

/-- The clock, first read at cursor `c`, reaches `GROUND_FAULT_DELAY_TIME` past that reading after
exactly `d` further readings inside the delay loop. -/
def delay_elapses (env : Env) (c d : Nat) : Prop :=
  (∀ i < d, delay_open env c i = true) ∧ delay_open env c d = false

/-- Within `fuel`, `relay_enable` entered in machine state `m` polls a ground fault during its
first coil window, or its first window ends cleanly and it polls one during its second. -/
def enable_sees_fault (env : Env) (fuel : Nat) (m : Machine) : Prop :=
  (∃ n, n < fuel ∧ window_fault env m.clocks m.reads m.vareads n) ∨
  (∃ n1 n2, n1 < fuel ∧ n2 < fuel ∧ window_clean env m.clocks m.reads m.vareads n1 ∧
    window_fault env (m.clocks + 2 + n1) (m.reads + n1) (m.vareads + n1) n2)

/-- A trace on which every poll of the ground-fault line hits and the clock advances by one
tenth of a second per reading: all port bits read as set and the out-of-range `va_arg` reads yield
the mask 1. -/
def steady_fault_trace : Env where
  CLOCKS_PER_SEC := 10
  PIN1_bm := 0x02
  PIN2_bm := 0x04
  PIN3_bm := 0x08
  PIN4_bm := 0x10
  PIN5_bm := 0x20
  PIN6_bm := 0x40
  PIN7_bm := 0x80
  PORT_PULLUPEN_bm := 0x08
  portIn := fun _ => 255
  clock := fun k => (k : Int)
  vaJunk := fun _ => 1

/-- A trace on which no poll of the ground-fault line hits and the clock advances by one
twentieth of a second per reading: all port bits read as set (both enable lines high) and the
out-of-range `va_arg` reads yield the empty mask. -/
def calm_trace : Env where
  CLOCKS_PER_SEC := 20
  PIN1_bm := 0x02
  PIN2_bm := 0x04
  PIN3_bm := 0x08
  PIN4_bm := 0x10
  PIN5_bm := 0x20
  PIN6_bm := 0x40
  PIN7_bm := 0x80
  PORT_PULLUPEN_bm := 0x08
  portIn := fun _ => 255
  clock := fun k => (k : Int)
  vaJunk := fun _ => 0

/-- The traces on which every bit of `PORTA.IN` always reads 0, so that both enable lines are
low; the out-of-range `va_arg` values and the clock readings are arbitrary. -/
def idle_trace (junk : Nat → Nat) (clk : Nat → Int) : Env where
  CLOCKS_PER_SEC := 1
  PIN1_bm := 0x02
  PIN2_bm := 0x04
  PIN3_bm := 0x08
  PIN4_bm := 0x10
  PIN5_bm := 0x20
  PIN6_bm := 0x40
  PIN7_bm := 0x80
  PORT_PULLUPEN_bm := 0x08
  portIn := fun _ => 0
  clock := clk
  vaJunk := junk

/-- The traces on which `PORTA.IN` reads the same value `p` at every read; the clock advances by
one second per reading and the out-of-range `va_arg` reads yield the empty mask. -/
def port_trace (p : Nat) : Env where
  CLOCKS_PER_SEC := 1
  PIN1_bm := 0x02
  PIN2_bm := 0x04
  PIN3_bm := 0x08
  PIN4_bm := 0x10
  PIN5_bm := 0x20
  PIN6_bm := 0x40
  PIN7_bm := 0x80
  PORT_PULLUPEN_bm := 0x08
  portIn := fun _ => p
  clock := fun k => (k : Int)
  vaJunk := fun _ => 0

/-- A handler result satisfies `P` at its return, if it returns at all. -/
def Res.at_return {α : Type} (P : Machine → Prop) : Res α → Prop
  | .ret _ m => P m
  | .spin _ => True

/-- The coupling of `current_state` and `fault_count`: the counter is 0 in `RELAY_ON` and in
`RELAY_DISABLE`, and at least 1 in `PROBATIONARY_RELAY_ON`. -/
def coupled (s : State) (m : Machine) : Prop :=
  (s = RELAY_ON ∨ s = RELAY_DISABLE → m.fault_count = 0) ∧
  (s = PROBATIONARY_RELAY_ON → 1 ≤ m.fault_count)

/-- The coupling of state and counter holds in a run, at the head of the dispatcher loop or
inside a handler. -/
def Run.is_coupled : Run → Prop
  | .head s m => coupled s m
  | .inside s m => coupled s m
  | .exited _ => True

/-- A trace with one ground fault and then none: all port bits read as set, the first
out-of-range `va_arg` read yields the mask 1 and the later ones the empty mask; the clock, at one
tick per second, reads 0, 0, 0, 15, 15, 15, 16, 16, 16 and 17 from then on. -/
def recover_trace : Env where
  CLOCKS_PER_SEC := 1
  PIN1_bm := 0x02
  PIN2_bm := 0x04
  PIN3_bm := 0x08
  PIN4_bm := 0x10
  PIN5_bm := 0x20
  PIN6_bm := 0x40
  PIN7_bm := 0x80
  PORT_PULLUPEN_bm := 0x08
  portIn := fun _ => 255
  clock := fun k => [0, 0, 0, 15, 15, 15, 16, 16, 16].getD k 17
  vaJunk := fun k => if k = 0 then 1 else 0

/-- The traces on which every out-of-range `va_arg` read yields the empty mask 0; the readings of
`PORTA.IN`, the readings of the clock and `CLOCKS_PER_SEC` are arbitrary. -/
def blind_trace (port : Nat → Nat) (clk : Nat → Int) (cps : Nat) : Env where
  CLOCKS_PER_SEC := cps
  PIN1_bm := 0x02
  PIN2_bm := 0x04
  PIN3_bm := 0x08
  PIN4_bm := 0x10
  PIN5_bm := 0x20
  PIN6_bm := 0x40
  PIN7_bm := 0x80
  PORT_PULLUPEN_bm := 0x08
  portIn := port
  clock := clk
  vaJunk := fun _ => 0

theorem is_high_loop_fault_count (env : Env) (n : Nat) (args : List Nat) (output : Bool)
    (m : Machine) : (is_high_loop env n args output m).2.fault_count = m.fault_count := by
  induction n generalizing args output m with
  | zero => simp [is_high_loop]
  | succ n ih =>
    cases args with
    | nil => simp [is_high_loop, read_port, va_arg, ih]
    | cons a rest => simp [is_high_loop, read_port, va_arg, ih]

theorem is_high_fault_count (env : Env) (m : Machine) (num : Int) (args : List Nat) :
    (is_high env m num args).2.fault_count = m.fault_count := by
  simp [is_high, is_high_loop_fault_count]

theorem start_signal_fault_count (pin : Nat) (m : Machine) :
    (start_signal pin m).fault_count = m.fault_count := by
  unfold start_signal; split_ifs <;> rfl

theorem stop_signal_fault_count (pin : Nat) (m : Machine) :
    (stop_signal pin m).fault_count = m.fault_count := by
  unfold stop_signal; split_ifs <;> rfl

theorem clock_fault_count (env : Env) (m : Machine) :
    (clock env m).2.fault_count = m.fault_count := rfl

theorem coil_window_fault_count (env : Env) (pin : Nat) (tic : Int) (fuel : Nat) (toc : Int)
    (m : Machine) : (coil_window env pin tic fuel toc m).machine.fault_count = m.fault_count := by
  induction fuel generalizing toc m with
  | zero => simp [coil_window, Res.machine]
  | succ fuel ih =>
    simp only [coil_window]
    split_ifs with h1 h2
    · simp [Res.machine, stop_signal_fault_count, is_high_fault_count]
    · rw [ih]; simp [clock_fault_count, is_high_fault_count]
    · simp [Res.machine]

theorem coil_window_returns (env : Env) (pin : Nat) (tic : Int) (fuel : Nat) (toc : Int)
    (m m1 : Machine) (s : State) (h : coil_window env pin tic fuel toc m = .ret (some s) m1) :
    s = SOFT_GROUND_FAULT := by
  induction fuel generalizing toc m with
  | zero => simp [coil_window] at h
  | succ fuel ih =>
    simp only [coil_window] at h
    split_ifs at h with h1 h2
    · simp at h; exact h.1.symm
    · exact ih _ _ h
    · simp at h

theorem coil_window_fault_count_of_eq {env : Env} {pin : Nat} {tic : Int} {fuel : Nat} {toc : Int}
    {m : Machine} {r : Res (Option State)} (h : coil_window env pin tic fuel toc m = r) :
    r.machine.fault_count = m.fault_count := by
  subst h; exact coil_window_fault_count env pin tic fuel toc m

/-! ## The enable poll `is_high(OPENWRT_PIN, EBIKE_PIN)`

Its first argument is the iteration count `num`, and `OPENWRT_PIN = (1 < 0x01) = 0`: the loop of
`is_high` does not run, nothing is read, and the result is `true`. -/

theorem enable_poll (env : Env) (m : Machine) :
    is_high env m OPENWRT_PIN [EBIKE_PIN] = (true, m) := rfl

/-! ## Handler lemmas: the counter and the returned states -/

theorem relay_off_eq (env : Env) (fuel : Nat) (m : Machine) :
    relay_off env (fuel + 1) m = .ret RELAY_ENABLE m := by
  simp [relay_off, enable_poll]

theorem relay_off_fault_count (env : Env) (fuel : Nat) (m : Machine) :
    (relay_off env fuel m).machine.fault_count = m.fault_count := by
  cases fuel with
  | zero => simp [relay_off, Res.machine]
  | succ fuel => simp [relay_off_eq, Res.machine]

theorem relay_off_returns (env : Env) (fuel : Nat) (m : Machine) :
    (relay_off env fuel m).returns_in [RELAY_ENABLE] := by
  cases fuel with
  | zero => simp [relay_off, Res.returns_in]
  | succ fuel => simp [relay_off_eq, Res.returns_in]

theorem relay_enable_fault_count (env : Env) (fuel : Nat) (m : Machine) :
    (relay_enable env fuel m).machine.fault_count = m.fault_count := by
  unfold relay_enable
  simp only []
  split
  · next m1 h1 =>
    have e1 := coil_window_fault_count_of_eq h1
    simpa [Res.machine, clock, start_signal_fault_count] using e1
  · next s m1 h1 =>
    have e1 := coil_window_fault_count_of_eq h1
    simpa [Res.machine, clock, start_signal_fault_count] using e1
  · next m1 h1 =>
    have e1 := coil_window_fault_count_of_eq h1
    simp only [Res.machine, clock, start_signal_fault_count] at e1
    split
    · next m2 h2 =>
      have e2 := coil_window_fault_count_of_eq h2
      simp only [Res.machine, clock, start_signal_fault_count, stop_signal_fault_count] at e2
      simp [Res.machine, e2, e1]
    · next s m2 h2 =>
      have e2 := coil_window_fault_count_of_eq h2
      simp only [Res.machine, clock, start_signal_fault_count, stop_signal_fault_count] at e2
      simp [Res.machine, e2, e1]
    · next m2 h2 =>
      have e2 := coil_window_fault_count_of_eq h2
      simp only [Res.machine, clock, start_signal_fault_count, stop_signal_fault_count] at e2
      split_ifs <;> simp [Res.machine, e2, e1, stop_signal_fault_count]

theorem relay_enable_returns (env : Env) (fuel : Nat) (m : Machine) :
    (relay_enable env fuel m).returns_in
      [SOFT_GROUND_FAULT, RELAY_ON, PROBATIONARY_RELAY_ON] := by
  unfold relay_enable
  simp only []
  split
  · simp [Res.returns_in]
  · next s m1 h1 => simp [Res.returns_in, coil_window_returns _ _ _ _ _ _ _ _ h1]
  · split
    · simp [Res.returns_in]
    · next s m1 h1 => simp [Res.returns_in, coil_window_returns _ _ _ _ _ _ _ _ h1]
    · split_ifs <;> simp [Res.returns_in]

theorem relay_disable_fault_count (env : Env) (fuel : Nat) (m : Machine) :
    (relay_disable env fuel m).machine.fault_count = m.fault_count := by
  unfold relay_disable
  simp only []
  split
  · next m1 h1 =>
    have e1 := coil_window_fault_count_of_eq h1
    simpa [Res.machine, clock, start_signal_fault_count] using e1
  · next s m1 h1 =>
    have e1 := coil_window_fault_count_of_eq h1
    simpa [Res.machine, clock, start_signal_fault_count] using e1
  · next m1 h1 =>
    have e1 := coil_window_fault_count_of_eq h1
    simp only [Res.machine, clock, start_signal_fault_count] at e1
    split
    · next m2 h2 =>
      have e2 := coil_window_fault_count_of_eq h2
      simp only [Res.machine, clock, start_signal_fault_count, stop_signal_fault_count] at e2
      simp [Res.machine, e2, e1]
    · next s m2 h2 =>
      have e2 := coil_window_fault_count_of_eq h2
      simp only [Res.machine, clock, start_signal_fault_count, stop_signal_fault_count] at e2
      simp [Res.machine, e2, e1]
    · next m2 h2 =>
      have e2 := coil_window_fault_count_of_eq h2
      simp only [Res.machine, clock, start_signal_fault_count, stop_signal_fault_count] at e2
      simp [Res.machine, e2, e1, stop_signal_fault_count]

theorem relay_disable_returns (env : Env) (fuel : Nat) (m : Machine) :
    (relay_disable env fuel m).returns_in [SOFT_GROUND_FAULT, RELAY_OFF] := by
  unfold relay_disable
  simp only []
  split
  · simp [Res.returns_in]
  · next s m1 h1 => simp [Res.returns_in, coil_window_returns _ _ _ _ _ _ _ _ h1]
  · split
    · simp [Res.returns_in]
    · next s m1 h1 => simp [Res.returns_in, coil_window_returns _ _ _ _ _ _ _ _ h1]
    · simp [Res.returns_in]

theorem relay_on_fault_count (env : Env) (fuel : Nat) (m : Machine) :
    (relay_on env fuel m).machine.fault_count = m.fault_count := by
  induction fuel generalizing m with
  | zero => simp [relay_on, Res.machine]
  | succ fuel ih =>
    simp only [relay_on, enable_poll, if_true]
    split_ifs
    · simp [Res.machine, is_high_fault_count]
    · rw [ih]; exact is_high_fault_count _ _ _ _

theorem relay_on_returns (env : Env) (fuel : Nat) (m : Machine) :
    (relay_on env fuel m).returns_in [SOFT_GROUND_FAULT] := by
  induction fuel generalizing m with
  | zero => simp [relay_on, Res.returns_in]
  | succ fuel ih =>
    simp only [relay_on, enable_poll, if_true]
    split_ifs
    · simp [Res.returns_in]
    · exact ih _

theorem fault_delay_fault_count (env : Env) (tic : Int) (fuel : Nat) (toc : Int) (m : Machine) :
    (fault_delay env tic fuel toc m).machine.fault_count = m.fault_count := by
  induction fuel generalizing toc m with
  | zero => simp [fault_delay, Res.machine]
  | succ fuel ih =>
    simp only [fault_delay]
    split_ifs
    · rw [ih]; rfl
    · simp [Res.machine]

theorem fault_delay_fault_count_of_eq {env : Env} {tic : Int} {fuel : Nat} {toc : Int}
    {m : Machine} {r : Res Unit} (h : fault_delay env tic fuel toc m = r) :
    r.machine.fault_count = m.fault_count := by
  subst h; exact fault_delay_fault_count env tic fuel toc m

theorem hard_ground_fault_eq (fuel : Nat) (m : Machine) : hard_ground_fault fuel m = .spin m := by
  induction fuel with
  | zero => rfl
  | succ fuel ih => simpa [hard_ground_fault] using ih

theorem soft_ground_fault_fault_count (env : Env) (fuel : Nat) (m : Machine) :
    (soft_ground_fault env fuel m).machine.fault_count = (m.fault_count + 1) % 256 := by
  unfold soft_ground_fault
  simp only []
  split_ifs
  · simp [Res.machine]
  · split
    · next m1 h1 => simpa [Res.machine, clock] using fault_delay_fault_count_of_eq h1
    · next u m1 h1 => simpa [Res.machine, clock] using fault_delay_fault_count_of_eq h1

theorem soft_ground_fault_returns (env : Env) (fuel : Nat) (m : Machine) :
    (soft_ground_fault env fuel m).returns_in [HARD_GROUND_FAULT, RELAY_ENABLE] := by
  unfold soft_ground_fault
  simp only []
  split_ifs
  · simp [Res.returns_in]
  · split <;> simp [Res.returns_in]

theorem soft_ground_fault_hard (env : Env) (fuel : Nat) (m m1 : Machine)
    (h : soft_ground_fault env fuel m = .ret RELAY_ENABLE m1) :
    ((m.fault_count + 1) % 256 : Int) < FAULT_LIMIT := by
  unfold soft_ground_fault at h
  simp only [] at h
  split_ifs at h with h1
  · simp at h
  · push_cast at h1; omega

theorem soft_ground_fault_spin (env : Env) (fuel : Nat) (m m1 : Machine)
    (h : soft_ground_fault env fuel m = .spin m1) :
    ((m.fault_count + 1) % 256 : Int) < FAULT_LIMIT := by
  unfold soft_ground_fault at h
  simp only [] at h
  split_ifs at h with h1
  · push_cast at h1; omega

theorem probation_loop_fault_count (env : Env) (tic toc : Int) (fuel : Nat) (m : Machine) :
    (probation_loop env tic toc fuel m).machine.fault_count = m.fault_count := by
  induction fuel generalizing m with
  | zero => simp [probation_loop, Res.machine]
  | succ fuel ih =>
    simp only [probation_loop, enable_poll, Bool.not_true, Bool.false_eq_true, if_false]
    split_ifs
    · simp [Res.machine, is_high_fault_count]
    · rw [ih]; exact is_high_fault_count _ _ _ _
    · simp [Res.machine]

theorem probation_loop_returns (env : Env) (tic toc : Int) (fuel : Nat) (m m1 : Machine)
    (s : State) (h : probation_loop env tic toc fuel m = .ret (some s) m1) :
    s = SOFT_GROUND_FAULT := by
  induction fuel generalizing m with
  | zero => simp [probation_loop] at h
  | succ fuel ih =>
    simp only [probation_loop, enable_poll, Bool.not_true, Bool.false_eq_true, if_false] at h
    split_ifs at h
    · simp at h; exact h.1.symm
    · exact ih _ h
    · simp at h

theorem probation_loop_fault_count_of_eq {env : Env} {tic toc : Int} {fuel : Nat}
    {m : Machine} {r : Res (Option State)} (h : probation_loop env tic toc fuel m = r) :
    r.machine.fault_count = m.fault_count := by
  subst h; exact probation_loop_fault_count env tic toc fuel m

theorem probationary_relay_on_fault_count (env : Env) (fuel : Nat) (m : Machine) :
    (probationary_relay_on env fuel m).machine.fault_count = m.fault_count ∨
      (probationary_relay_on env fuel m).machine.fault_count = 0 := by
  unfold probationary_relay_on
  simp only []
  split
  · next m1 h1 =>
    left; simpa [Res.machine, clock] using probation_loop_fault_count_of_eq h1
  · next s m1 h1 =>
    left; simpa [Res.machine, clock] using probation_loop_fault_count_of_eq h1
  · right; simp [Res.machine]

theorem probationary_relay_on_returns (env : Env) (fuel : Nat) (m : Machine) :
    (probationary_relay_on env fuel m).returns_in [SOFT_GROUND_FAULT, RELAY_ON] := by
  unfold probationary_relay_on
  simp only []
  split
  · simp [Res.returns_in]
  · next s m1 h1 => simp [Res.returns_in, probation_loop_returns _ _ _ _ _ _ _ h1]
  · simp [Res.returns_in]

/-! ## The dispatcher invariant -/

theorem assign_inv (current_state : State) (r : Res State) (allowed : List State)
    (hr : r.returns_in allowed) (ha : ∀ s ∈ allowed, s ≤ 7 ∧ s ≠ HARD_GROUND_FAULT)
    (hf : (r.machine.fault_count : Int) < FAULT_LIMIT) : (assign current_state r).inv := by
  cases r with
  | ret s m =>
    simp only [Res.returns_in] at hr
    simp only [Res.machine] at hf
    exact ⟨(ha s hr).1, le_of_lt hf, fun _ => hf⟩
  | spin m => exact le_of_lt hf

theorem dispatch_inv (env : Env) (fuel : Nat) (current_state : Nat) (m : Machine)
    (h : (Run.head current_state m).inv) : (dispatch env fuel current_state m).inv := by
  obtain ⟨h7, hle, hlt⟩ := h
  simp only [FAULT_LIMIT, HARD_GROUND_FAULT] at hle hlt
  unfold dispatch
  simp only [START, RELAY_OFF, RELAY_ENABLE, RELAY_ON, RELAY_DISABLE, SOFT_GROUND_FAULT,
    HARD_GROUND_FAULT, PROBATIONARY_RELAY_ON, State] at h7 hlt ⊢
  split_ifs with c0 c1 c2 c3 c4 c5 c6 c7
  · simp [start, Run.inv, FAULT_LIMIT]
  · refine assign_inv _ _ _ (relay_off_returns env fuel m) (by decide) ?_
    rw [relay_off_fault_count]; exact hlt (by omega)
  · refine assign_inv _ _ _ (relay_enable_returns env fuel m) (by decide) ?_
    rw [relay_enable_fault_count]; exact hlt (by omega)
  · refine assign_inv _ _ _ (relay_on_returns env fuel m) (by decide) ?_
    rw [relay_on_fault_count]; exact hlt (by omega)
  · refine assign_inv _ _ _ (relay_disable_returns env fuel m) (by decide) ?_
    rw [relay_disable_fault_count]; exact hlt (by omega)
  · have hm := hlt (by omega)
    have hfc := soft_ground_fault_fault_count env fuel m
    have hret := soft_ground_fault_returns env fuel m
    cases hs : soft_ground_fault env fuel m with
    | ret s m1 =>
      rw [hs] at hfc hret
      simp only [Res.machine] at hfc
      simp only [Res.returns_in, List.mem_cons, List.mem_singleton, List.not_mem_nil,
        or_false] at hret
      simp only [assign, Run.inv, FAULT_LIMIT, HARD_GROUND_FAULT]
      rcases hret with rfl | rfl
      · refine ⟨by decide, by omega, fun hne => absurd rfl hne⟩
      · have := soft_ground_fault_hard env fuel m m1 hs
        simp only [FAULT_LIMIT] at this
        refine ⟨by decide, by omega, fun _ => by omega⟩
    | spin m1 =>
      rw [hs] at hfc
      simp only [Res.machine] at hfc
      have := soft_ground_fault_spin env fuel m m1 hs
      simp only [FAULT_LIMIT] at this
      simp only [assign, Run.inv, FAULT_LIMIT]
      omega
  · simp only [hard_ground_fault_eq, Run.inv, FAULT_LIMIT]; exact hle
  · refine assign_inv _ _ _ (probationary_relay_on_returns env fuel m) (by decide) ?_
    have hm := hlt (by omega)
    rcases probationary_relay_on_fault_count env fuel m with h1 | h1
    · rw [h1]; exact hm
    · rw [h1]; simp [FAULT_LIMIT]
  · omega

theorem state_machine_from_inv (env : Env) (fuel n : Nat) (current_state : State) (m : Machine)
    (h : (Run.head current_state m).inv) : (state_machine_from env fuel n current_state m).inv := by
  induction n generalizing current_state m with
  | zero => simpa [state_machine_from] using h
  | succ n ih =>
    have hd := dispatch_inv env fuel current_state m h
    simp only [state_machine_from]
    cases hr : dispatch env fuel current_state m with
    | head s m1 => rw [hr] at hd; exact ih _ _ hd
    | inside s m1 => rw [hr] at hd; exact hd
    | exited m1 => rw [hr] at hd; exact hd

theorem state_machine_inv (env : Env) (fuel n : Nat) (regs : Machine) :
    (state_machine env fuel n regs).inv :=
  state_machine_from_inv env fuel n START (power_on regs) (by simp [Run.inv, power_on, FAULT_LIMIT])

/-! ## Loop lemmas: coil windows and the fault delay -/

theorem is_high_gfi (env : Env) (m : Machine) :
    is_high env m GFI_PIN [] = (gfi_poll env m.reads m.vareads, m.advance 1 0) := by
  simp [is_high, GFI_PIN, c_lt, is_high_loop, read_port, va_arg, gfi_poll, zero_machine,
    Machine.advance]

theorem advance_zero (m : Machine) : m.advance 0 0 = m := rfl

theorem advance_advance (m : Machine) (a b c d : Nat) :
    (m.advance a b).advance c d = m.advance (a + c) (b + d) := by
  simp [Machine.advance, Nat.add_assoc]

theorem coil_window_clean (env : Env) (pin : Nat) (tic : Int) (n : Nat) :
    ∀ (fuel : Nat) (m : Machine) (b : Nat), m.clocks = b + 1 →
      (∀ i < n, (get_time_diff env tic (env.clock (b + i))).lt RELAY_POWER_TIME = true ∧
        gfi_poll env (m.reads + i) (m.vareads + i) = true) →
      (get_time_diff env tic (env.clock (b + n))).lt RELAY_POWER_TIME = false →
      n < fuel →
      coil_window env pin tic fuel (env.clock b) m = .ret none (m.advance n n) := by
  induction n with
  | zero =>
    intro fuel m b _ _ hend hfuel
    obtain ⟨f, rfl⟩ := Nat.exists_eq_succ_of_ne_zero (Nat.ne_of_gt hfuel)
    simp only [Nat.add_zero] at hend
    simp [coil_window, hend, advance_zero]
  | succ n ih =>
    intro fuel m b hb hopen hend hfuel
    obtain ⟨f, rfl⟩ := Nat.exists_eq_succ_of_ne_zero (Nat.ne_of_gt (Nat.lt_of_le_of_lt (Nat.zero_le _) hfuel))
    have h0 := hopen 0 (Nat.succ_pos n)
    simp only [Nat.add_zero] at h0
    have hstep := ih f ((m.advance 1 0).advance 0 1) (b + 1) (by simp [Machine.advance, hb])
      (fun i hi => by
        have := hopen (i + 1) (Nat.succ_lt_succ hi)
        simpa [Machine.advance, Nat.add_assoc, Nat.add_comm 1 i] using this)
      (by simpa [Nat.add_assoc, Nat.add_comm 1 n] using hend)
      (Nat.lt_of_succ_lt_succ hfuel)
    simp only [coil_window, h0.1, is_high_gfi, h0.2, if_true, Bool.not_true, Bool.false_eq_true,
      if_false, clock]
    have e : (m.advance 1 0).clocks = b + 1 := by simp [Machine.advance, hb]
    rw [e]
    have e2 : ({ (m.advance 1 0) with clocks := b + 1 + 1 } : Machine) = (m.advance 1 0).advance 0 1 := by
      simp [Machine.advance, hb]
    rw [e2, hstep, advance_advance, advance_advance]
    simp [Nat.add_comm]

theorem coil_window_fault (env : Env) (pin : Nat) (tic : Int) (n : Nat) :
    ∀ (fuel : Nat) (m : Machine) (b : Nat), m.clocks = b + 1 →
      (∀ i < n, (get_time_diff env tic (env.clock (b + i))).lt RELAY_POWER_TIME = true ∧
        gfi_poll env (m.reads + i) (m.vareads + i) = true) →
      (get_time_diff env tic (env.clock (b + n))).lt RELAY_POWER_TIME = true →
      gfi_poll env (m.reads + n) (m.vareads + n) = false →
      n < fuel →
      coil_window env pin tic fuel (env.clock b) m =
        .ret (some SOFT_GROUND_FAULT) (stop_signal pin (m.advance (n + 1) n)) := by
  induction n with
  | zero =>
    intro fuel m b _ _ hopen hpoll hfuel
    obtain ⟨f, rfl⟩ := Nat.exists_eq_succ_of_ne_zero (Nat.ne_of_gt hfuel)
    simp only [Nat.add_zero] at hopen hpoll
    simp [coil_window, hopen, is_high_gfi, hpoll]
  | succ n ih =>
    intro fuel m b hb hclean hopen hpoll hfuel
    obtain ⟨f, rfl⟩ := Nat.exists_eq_succ_of_ne_zero
      (Nat.ne_of_gt (Nat.lt_of_le_of_lt (Nat.zero_le _) hfuel))
    have h0 := hclean 0 (Nat.succ_pos n)
    simp only [Nat.add_zero] at h0
    have hstep := ih f ((m.advance 1 0).advance 0 1) (b + 1) (by simp [Machine.advance, hb])
      (fun i hi => by
        have := hclean (i + 1) (Nat.succ_lt_succ hi)
        simpa [Machine.advance, Nat.add_assoc, Nat.add_comm 1 i] using this)
      (by simpa [Nat.add_assoc, Nat.add_comm 1 n] using hopen)
      (by simpa [Machine.advance, Nat.add_assoc, Nat.add_comm 1 n] using hpoll)
      (Nat.lt_of_succ_lt_succ hfuel)
    simp only [coil_window, h0.1, is_high_gfi, h0.2, if_true, Bool.not_true, Bool.false_eq_true,
      if_false, clock]
    have e : (m.advance 1 0).clocks = b + 1 := by simp [Machine.advance, hb]
    rw [e]
    have e2 : ({ (m.advance 1 0) with clocks := b + 1 + 1 } : Machine) =
        (m.advance 1 0).advance 0 1 := by
      simp [Machine.advance, hb]
    rw [e2, hstep, advance_advance, advance_advance]
    simp [Nat.add_comm]

theorem fault_delay_elapses (env : Env) (tic : Int) (n : Nat) :
    ∀ (fuel : Nat) (m : Machine) (b : Nat), m.clocks = b + 1 →
      (∀ i < n, (get_time_diff env tic (env.clock (b + i))).lt GROUND_FAULT_DELAY_TIME = true) →
      (get_time_diff env tic (env.clock (b + n))).lt GROUND_FAULT_DELAY_TIME = false →
      n < fuel →
      fault_delay env tic fuel (env.clock b) m = .ret () (m.advance 0 n) := by
  induction n with
  | zero =>
    intro fuel m b _ _ hend hfuel
    obtain ⟨f, rfl⟩ := Nat.exists_eq_succ_of_ne_zero (Nat.ne_of_gt hfuel)
    simp only [Nat.add_zero] at hend
    simp [fault_delay, hend, advance_zero]
  | succ n ih =>
    intro fuel m b hb hopen hend hfuel
    obtain ⟨f, rfl⟩ := Nat.exists_eq_succ_of_ne_zero
      (Nat.ne_of_gt (Nat.lt_of_le_of_lt (Nat.zero_le _) hfuel))
    have h0 := hopen 0 (Nat.succ_pos n)
    simp only [Nat.add_zero] at h0
    have hstep := ih f (m.advance 0 1) (b + 1) (by simp [Machine.advance, hb])
      (fun i hi => by
        have := hopen (i + 1) (Nat.succ_lt_succ hi)
        simpa [Nat.add_assoc, Nat.add_comm 1 i] using this)
      (by simpa [Nat.add_assoc, Nat.add_comm 1 n] using hend)
      (Nat.lt_of_succ_lt_succ hfuel)
    simp only [fault_delay, h0, if_true, clock]
    rw [hb]
    have e2 : ({ m with clocks := b + 1 + 1 } : Machine) = m.advance 0 1 := by
      simp [Machine.advance, hb]
    rw [e2, hstep, advance_advance]
    simp [Nat.add_comm]

theorem clock_eq (env : Env) (m : Machine) : clock env m = (env.clock m.clocks, m.advance 0 1) :=
  rfl

@[simp]
theorem advance_clocks (m : Machine) (a b : Nat) : (m.advance a b).clocks = m.clocks + b :=
  rfl
@[simp]
theorem advance_reads (m : Machine) (a b : Nat) : (m.advance a b).reads = m.reads + a :=
  rfl
@[simp]
theorem advance_vareads (m : Machine) (a b : Nat) :
    (m.advance a b).vareads = m.vareads + a := rfl
@[simp]
theorem advance_fault_count (m : Machine) (a b : Nat) :
    (m.advance a b).fault_count = m.fault_count := rfl
@[simp]
theorem advance_OUT (m : Machine) (a b : Nat) : (m.advance a b).OUT = m.OUT := rfl

@[simp]
theorem start_signal_clocks (pin : Nat) (m : Machine) :
    (start_signal pin m).clocks = m.clocks := by
  unfold start_signal; split_ifs <;> rfl
@[simp]
theorem start_signal_reads (pin : Nat) (m : Machine) :
    (start_signal pin m).reads = m.reads := by
  unfold start_signal; split_ifs <;> rfl
@[simp]
theorem start_signal_vareads (pin : Nat) (m : Machine) :
    (start_signal pin m).vareads = m.vareads := by
  unfold start_signal; split_ifs <;> rfl
@[simp]
theorem stop_signal_clocks (pin : Nat) (m : Machine) :
    (stop_signal pin m).clocks = m.clocks := by
  unfold stop_signal; split_ifs <;> rfl
@[simp]
theorem stop_signal_reads (pin : Nat) (m : Machine) :
    (stop_signal pin m).reads = m.reads := by
  unfold stop_signal; split_ifs <;> rfl
@[simp]
theorem stop_signal_vareads (pin : Nat) (m : Machine) :
    (stop_signal pin m).vareads = m.vareads := by
  unfold stop_signal; split_ifs <;> rfl

theorem relay_enable_first_fault (env : Env) (fuel : Nat) (m : Machine) (n : Nat)
    (hn : n < fuel) (h : window_fault env m.clocks m.reads m.vareads n) :
    ∃ m1, relay_enable env fuel m = .ret SOFT_GROUND_FAULT m1 := by
  obtain ⟨hclean, hopen, hpoll⟩ := h
  have hw := coil_window_fault env RELAY_OFF_PIN (env.clock m.clocks) n fuel
    ((start_signal RELAY_OFF_PIN m).advance 0 2) (m.clocks + 1) (by simp)
    (by simpa [window_open] using hclean) (by simpa [window_open] using hopen)
    (by simpa using hpoll) hn
  simp only [relay_enable, clock_eq, advance_clocks, start_signal_clocks, advance_advance,
    Nat.add_zero, Nat.zero_add]
  rw [hw]
  exact ⟨_, rfl⟩

theorem relay_enable_first_clean (env : Env) (fuel : Nat) (m : Machine) (n : Nat)
    (hn : n < fuel) (h : window_clean env m.clocks m.reads m.vareads n) :
    coil_window env RELAY_OFF_PIN (env.clock m.clocks) fuel (env.clock (m.clocks + 1))
      ((start_signal RELAY_OFF_PIN m).advance 0 2) =
      .ret none ((start_signal RELAY_OFF_PIN m).advance n (2 + n)) := by
  obtain ⟨hclean, hend⟩ := h
  have hw := coil_window_clean env RELAY_OFF_PIN (env.clock m.clocks) n fuel
    ((start_signal RELAY_OFF_PIN m).advance 0 2) (m.clocks + 1) (by simp)
    (by simpa [window_open] using hclean) (by simpa [window_open] using hend) hn
  rw [hw, advance_advance, Nat.zero_add]

theorem relay_enable_second_fault (env : Env) (fuel : Nat) (m : Machine) (n1 n2 : Nat)
    (hn1 : n1 < fuel) (hn2 : n2 < fuel) (h1 : window_clean env m.clocks m.reads m.vareads n1)
    (h2 : window_fault env (m.clocks + 2 + n1) (m.reads + n1) (m.vareads + n1) n2) :
    ∃ m1, relay_enable env fuel m = .ret SOFT_GROUND_FAULT m1 := by
  have hw1 := relay_enable_first_clean env fuel m n1 hn1 h1
  obtain ⟨hclean, hopen, hpoll⟩ := h2
  have hw2 := coil_window_fault env RELAY_ON_PIN (env.clock (m.clocks + 2 + n1)) n2 fuel
    ((start_signal RELAY_ON_PIN (stop_signal RELAY_OFF_PIN
      ((start_signal RELAY_OFF_PIN m).advance n1 (2 + n1)))).advance 0 2)
    (m.clocks + 2 + n1 + 1) (by simp [Nat.add_assoc])
    (by simpa [window_open] using hclean) (by simpa [window_open] using hopen)
    (by simpa using hpoll) hn2
  simp only [relay_enable, clock_eq, advance_clocks, start_signal_clocks, stop_signal_clocks,
    advance_advance, Nat.add_zero, Nat.zero_add]
  rw [hw1]
  simp only [advance_clocks, start_signal_clocks, stop_signal_clocks, ← Nat.add_assoc]
  rw [hw2]
  exact ⟨_, rfl⟩

theorem relay_enable_clean (env : Env) (fuel : Nat) (m : Machine) (n1 n2 : Nat)
    (hn1 : n1 < fuel) (hn2 : n2 < fuel) (h1 : window_clean env m.clocks m.reads m.vareads n1)
    (h2 : window_clean env (m.clocks + 2 + n1) (m.reads + n1) (m.vareads + n1) n2) :
    ∃ m1, relay_enable env fuel m =
      .ret (if m.fault_count = 0 then RELAY_ON else PROBATIONARY_RELAY_ON) m1 := by
  have hw1 := relay_enable_first_clean env fuel m n1 hn1 h1
  obtain ⟨hclean, hend⟩ := h2
  have hw2 := coil_window_clean env RELAY_ON_PIN (env.clock (m.clocks + 2 + n1)) n2 fuel
    ((start_signal RELAY_ON_PIN (stop_signal RELAY_OFF_PIN
      ((start_signal RELAY_OFF_PIN m).advance n1 (2 + n1)))).advance 0 2)
    (m.clocks + 2 + n1 + 1) (by simp [Nat.add_assoc])
    (by simpa [window_open] using hclean) (by simpa [window_open] using hend) hn2
  simp only [relay_enable, clock_eq, advance_clocks, start_signal_clocks, stop_signal_clocks,
    advance_advance, Nat.add_zero, Nat.zero_add]
  rw [hw1]
  simp only [advance_clocks, start_signal_clocks, stop_signal_clocks, ← Nat.add_assoc]
  rw [hw2]
  simp only [stop_signal_fault_count, start_signal_fault_count, advance_fault_count]
  split_ifs
  · exact ⟨_, rfl⟩
  · exact ⟨_, rfl⟩

theorem relay_enable_sees_fault (env : Env) (fuel : Nat) (m : Machine)
    (h : enable_sees_fault env fuel m) :
    ∃ m1, relay_enable env fuel m = .ret SOFT_GROUND_FAULT m1 ∧
      m1.fault_count = m.fault_count := by
  have key : ∃ m1, relay_enable env fuel m = .ret SOFT_GROUND_FAULT m1 := by
    rcases h with ⟨n, hn, hw⟩ | ⟨n1, n2, hn1, hn2, hw1, hw2⟩
    · exact relay_enable_first_fault env fuel m n hn hw
    · exact relay_enable_second_fault env fuel m n1 n2 hn1 hn2 hw1 hw2
  obtain ⟨m1, h1⟩ := key
  refine ⟨m1, h1, ?_⟩
  have := relay_enable_fault_count env fuel m
  rwa [h1] at this

theorem soft_ground_fault_retry (env : Env) (fuel : Nat) (m : Machine) (d : Nat)
    (hlim : m.fault_count + 1 < 20) (hd : d < fuel) (h : delay_elapses env m.clocks d) :
    ∃ m1, soft_ground_fault env fuel m = .ret RELAY_ENABLE m1 ∧
      m1.fault_count = m.fault_count + 1 := by
  obtain ⟨hopen, hend⟩ := h
  have hw := fault_delay_elapses env (env.clock m.clocks) d fuel
    (({ m with fault_count := (m.fault_count + 1) % 256 } : Machine).advance 0 2)
    (m.clocks + 1) (by simp)
    (by simpa [delay_open] using hopen) (by simpa [delay_open] using hend) hd
  have hmod : (m.fault_count + 1) % 256 = m.fault_count + 1 := by omega
  have hnot : ¬ (((m.fault_count + 1) % 256 : Nat) : Int) ≥ FAULT_LIMIT := by
    rw [hmod]; simp only [FAULT_LIMIT]; omega
  simp only [soft_ground_fault, hnot, if_false, clock_eq, advance_clocks, advance_advance,
    Nat.add_zero, Nat.zero_add]
  rw [hw]
  exact ⟨_, rfl, by simp [hmod]⟩

theorem soft_ground_fault_limit (env : Env) (fuel : Nat) (m : Machine)
    (hlim : m.fault_count + 1 = 20) :
    ∃ m1, soft_ground_fault env fuel m = .ret HARD_GROUND_FAULT m1 ∧ m1.fault_count = 20 := by
  have hmod : (m.fault_count + 1) % 256 = 20 := by omega
  simp only [soft_ground_fault, hmod, FAULT_LIMIT]
  exact ⟨_, rfl, rfl⟩

/-! ## Unrolling the dispatcher loop -/

theorem state_machine_from_succ (env : Env) (fuel n : Nat) (current_state : State) (m : Machine) :
    state_machine_from env fuel (n + 1) current_state m =
      match state_machine_from env fuel n current_state m with
      | .head s m1 => dispatch env fuel s m1
      | r => r := by
  induction n generalizing current_state m with
  | zero =>
    simp only [state_machine_from]
    cases dispatch env fuel current_state m <;> rfl
  | succ n ih =>
    rw [state_machine_from]
    cases hd : dispatch env fuel current_state m with
    | head s m1 =>
      simp only []
      rw [ih s m1]
      conv_rhs => rw [state_machine_from, hd]
    | inside s m1 =>
      conv_rhs => rw [state_machine_from, hd]
    | exited m1 =>
      conv_rhs => rw [state_machine_from, hd]

theorem state_machine_succ (env : Env) (fuel n : Nat) (regs : Machine) (s : State) (m : Machine)
    (h : state_machine env fuel n regs = .head s m) :
    state_machine env fuel (n + 1) regs = dispatch env fuel s m := by
  unfold state_machine at h ⊢
  rw [state_machine_from_succ, h]

theorem state_machine_stuck (env : Env) (fuel n : Nat) (regs : Machine) (s : State) (m : Machine)
    (h : state_machine env fuel n regs = .inside s m) (j : Nat) :
    state_machine env fuel (n + j) regs = .inside s m := by
  induction j with
  | zero => exact h
  | succ j ih =>
    unfold state_machine at ih ⊢
    rw [← Nat.add_assoc, state_machine_from_succ, ih]

theorem start_state (env : Env) (m : Machine) : (start env m).1 = RELAY_OFF := rfl

theorem start_fault_count (env : Env) (m : Machine) : (start env m).2.fault_count = 0 := rfl

/-! ## The example traces -/

theorem steady_fault_sees_fault (m : Machine) : enable_sees_fault steady_fault_trace 150 m := by
  refine Or.inl ⟨0, by decide, ?_, ?_, ?_⟩
  · intro i hi; omega
  · simp [window_open, get_time_diff, Seconds.lt, RELAY_POWER_TIME, steady_fault_trace]
  · simp [gfi_poll, is_high, GFI_PIN, c_lt, is_high_loop, read_port, va_arg, steady_fault_trace]

theorem steady_fault_delay (c : Nat) : delay_elapses steady_fault_trace c 149 := by
  constructor
  · intro i hi
    simp only [delay_open, get_time_diff, Seconds.lt, GROUND_FAULT_DELAY_TIME, steady_fault_trace,
      decide_eq_true_eq]
    push_cast
    omega
  · simp only [delay_open, get_time_diff, Seconds.lt, GROUND_FAULT_DELAY_TIME, steady_fault_trace,
      decide_eq_false_iff_not]
    push_cast
    omega

theorem idle_gfi_poll (junk : Nat → Nat) (clk : Nat → Int) (r v : Nat) :
    gfi_poll (idle_trace junk clk) r v = true := by
  simp [gfi_poll, is_high, GFI_PIN, c_lt, is_high_loop, read_port, va_arg, idle_trace]

theorem idle_probation_loop (junk : Nat → Nat) (clk : Nat → Int) (tic toc : Int) (fuel : Nat)
    (m : Machine)
    (hopen : (get_time_diff (idle_trace junk clk) tic toc).lt PROBATION_TIME = true) :
    probation_loop (idle_trace junk clk) tic toc fuel m = .spin (m.advance fuel 0) := by
  induction fuel generalizing m with
  | zero => rfl
  | succ fuel ih =>
    simp only [probation_loop, hopen, enable_poll, is_high_gfi, idle_gfi_poll, if_true,
      Bool.not_true, Bool.false_eq_true, if_false]
    rw [ih, advance_advance]
    simp [Nat.add_comm]

theorem returns_in_mono {r : Res State} {a b : List State} (h : r.returns_in a)
    (hab : ∀ s ∈ a, s ∈ b) : r.returns_in b := by
  cases r with
  | ret s m => exact hab s h
  | spin m => trivial

/-! ## Pin functions on a constant port value -/

theorem is_high_loop_port (p : Nat) (args : List Nat) (output : Bool) (m : Machine) :
    (is_high_loop (port_trace p) args.length args output m).1 =
      (output && args.all (fun a => p % 256 &&& a % 256 == 0)) := by
  induction args generalizing output m with
  | nil => simp [is_high_loop]
  | cons a rest ih =>
    simp only [List.length_cons, is_high_loop, read_port, va_arg, List.all_cons]
    rw [ih]
    simp only [show (port_trace p).portIn m.reads = p from rfl]
    by_cases h : p % 256 &&& a % 256 = 0 <;> simp [h]

set_option maxRecDepth 20000 in
theorem bit0_after_set (x : Nat) : set_bits x 1 &&& 1 = 1 := by
  have key : ∀ y < 256, (y ||| 1) &&& 1 = 1 := by decide
  exact key (x % 256) (Nat.mod_lt _ (by decide))

set_option maxRecDepth 20000 in
theorem bit0_after_clear (x : Nat) : clear_bits x 1 &&& 1 = 0 := by
  have key : ∀ y < 256, (y &&& 254) &&& 1 = 0 := by decide
  exact key (x % 256) (Nat.mod_lt _ (by decide))

theorem update_status_pins_OUT (env : Env) (m : Machine) :
    (update_status_pins env m).OUT =
      if env.portIn (m.reads + 1) % 256 &&& 1 ≠ 0 then set_bits (clear_bits m.OUT 1) 1
      else clear_bits (clear_bits m.OUT 1) 1 := by
  have h0 : OPENWRT_PIN = 0 := rfl
  have h1 : EBIKE_PIN = 1 := rfl
  have h2 : OPENWRT_STATUS_PIN = 1 := rfl
  have h3 : EBIKE_STATUS_PIN = 1 := rfl
  simp only [update_status_pins, read_port, h0, h1, h2, h3, Nat.and_zero, ne_eq,
    not_true_eq_false, if_false]
  split_ifs <;> rfl

set_option maxRecDepth 100000 in
theorem status_update_idem (b : Bool) (x : Nat) :
    (if b then set_bits (clear_bits
        (if b then set_bits (clear_bits x 1) 1 else clear_bits (clear_bits x 1) 1) 1) 1
      else clear_bits (clear_bits
        (if b then set_bits (clear_bits x 1) 1 else clear_bits (clear_bits x 1) 1) 1) 1) =
    (if b then set_bits (clear_bits x 1) 1 else clear_bits (clear_bits x 1) 1) := by
  have key : ∀ y < 256, ∀ c : Bool,
      (if c then set_bits (clear_bits
          (if c then set_bits (clear_bits y 1) 1 else clear_bits (clear_bits y 1) 1) 1) 1
        else clear_bits (clear_bits
          (if c then set_bits (clear_bits y 1) 1 else clear_bits (clear_bits y 1) 1) 1) 1) =
      (if c then set_bits (clear_bits y 1) 1 else clear_bits (clear_bits y 1) 1) := by
    decide
  have e : clear_bits x 1 = clear_bits (x % 256) 1 := by simp [clear_bits]
  rw [e]
  exact key (x % 256) (Nat.mod_lt _ (by decide)) b

/-! ## Traces on which the ground-fault poll is constant -/

theorem probation_loop_stale (env : Env) (tic toc : Int) (fuel : Nat) (m : Machine)
    (hopen : (get_time_diff env tic toc).lt PROBATION_TIME = true)
    (hpoll : ∀ r v, gfi_poll env r v = true) :
    probation_loop env tic toc fuel m = .spin (m.advance fuel 0) := by
  induction fuel generalizing m with
  | zero => rfl
  | succ fuel ih =>
    simp only [probation_loop, hopen, enable_poll, is_high_gfi, hpoll, if_true,
      Bool.not_true, Bool.false_eq_true, if_false]
    rw [ih, advance_advance]
    simp [Nat.add_comm]

theorem calm_gfi_poll (r v : Nat) : gfi_poll calm_trace r v = true := by
  simp [gfi_poll, is_high, GFI_PIN, c_lt, is_high_loop, read_port, va_arg, calm_trace]

theorem steady_fault_gfi_poll (r v : Nat) : gfi_poll steady_fault_trace r v = false := by
  simp [gfi_poll, is_high, GFI_PIN, c_lt, is_high_loop, read_port, va_arg, steady_fault_trace]

theorem coil_window_clean_polls (env : Env) (pin : Nat) (tic : Int) (fuel : Nat) (toc : Int)
    (m m1 : Machine) (s : State) (hpoll : ∀ r v, gfi_poll env r v = true) :
    coil_window env pin tic fuel toc m ≠ .ret (some s) m1 := by
  induction fuel generalizing toc m with
  | zero => simp [coil_window]
  | succ fuel ih =>
    simp only [coil_window, is_high_gfi, hpoll, Bool.not_true, Bool.false_eq_true, if_false]
    split_ifs
    · exact ih _ _
    · simp

theorem probation_loop_clean_polls (env : Env) (tic toc : Int) (fuel : Nat)
    (m m1 : Machine) (s : State) (hpoll : ∀ r v, gfi_poll env r v = true) :
    probation_loop env tic toc fuel m ≠ .ret (some s) m1 := by
  induction fuel generalizing m with
  | zero => simp [probation_loop]
  | succ fuel ih =>
    simp only [probation_loop, enable_poll, is_high_gfi, hpoll, Bool.not_true,
      Bool.false_eq_true, if_false]
    split_ifs
    · exact ih _
    · simp

theorem relay_enable_clean_polls (env : Env) (fuel : Nat) (m : Machine)
    (hpoll : ∀ r v, gfi_poll env r v = true) :
    (relay_enable env fuel m).returns_in [RELAY_ON, PROBATIONARY_RELAY_ON] := by
  unfold relay_enable
  simp only []
  split
  · simp [Res.returns_in]
  · next s m1 h1 => exact absurd h1 (coil_window_clean_polls _ _ _ _ _ _ _ _ hpoll)
  · split
    · simp [Res.returns_in]
    · next s m1 h1 => exact absurd h1 (coil_window_clean_polls _ _ _ _ _ _ _ _ hpoll)
    · split_ifs <;> simp [Res.returns_in]

theorem relay_disable_clean_polls (env : Env) (fuel : Nat) (m : Machine)
    (hpoll : ∀ r v, gfi_poll env r v = true) :
    (relay_disable env fuel m).returns_in [RELAY_OFF] := by
  unfold relay_disable
  simp only []
  split
  · simp [Res.returns_in]
  · next s m1 h1 => exact absurd h1 (coil_window_clean_polls _ _ _ _ _ _ _ _ hpoll)
  · split
    · simp [Res.returns_in]
    · next s m1 h1 => exact absurd h1 (coil_window_clean_polls _ _ _ _ _ _ _ _ hpoll)
    · simp [Res.returns_in]

theorem probationary_clean_polls (env : Env) (fuel : Nat) (m : Machine)
    (hpoll : ∀ r v, gfi_poll env r v = true) :
    (probationary_relay_on env fuel m).returns_in [RELAY_ON] := by
  unfold probationary_relay_on
  simp only []
  split
  · simp [Res.returns_in]
  · next s m1 h1 => exact absurd h1 (probation_loop_clean_polls _ _ _ _ _ _ _ hpoll)
  · simp [Res.returns_in]

theorem relay_on_fault_polls (env : Env) (fuel : Nat) (m : Machine)
    (hpoll : ∀ r v, gfi_poll env r v = false) :
    relay_on env fuel m = .spin (m.advance fuel 0) := by
  induction fuel generalizing m with
  | zero => rfl
  | succ fuel ih =>
    simp only [relay_on, enable_poll, is_high_gfi, hpoll, if_true, Bool.false_eq_true, if_false]
    rw [ih, advance_advance]
    simp [Nat.add_comm]

/-! ## The coil outputs at the returns of `relay_enable` and `relay_disable` -/

theorem stop_signal_on_OUT (m : Machine) :
    (stop_signal RELAY_ON_PIN m).OUT = set_bits m.OUT 1 := rfl

theorem stop_signal_off_OUT (m : Machine) :
    (stop_signal RELAY_OFF_PIN m).OUT = set_bits m.OUT 1 := rfl

theorem start_signal_off_OUT (m : Machine) :
    (start_signal RELAY_OFF_PIN m).OUT = clear_bits m.OUT 1 := rfl

theorem start_signal_on_OUT (m : Machine) :
    (start_signal RELAY_ON_PIN m).OUT = clear_bits m.OUT 1 := rfl

theorem coil_window_released (env : Env) (pin : Nat) (tic : Int) (fuel : Nat) (toc : Int)
    (m m1 : Machine) (s : State) (hpin : pin = RELAY_ON_PIN ∨ pin = RELAY_OFF_PIN)
    (h : coil_window env pin tic fuel toc m = .ret (some s) m1) : m1.OUT &&& 1 = 1 := by
  induction fuel generalizing toc m with
  | zero => simp [coil_window] at h
  | succ fuel ih =>
    simp only [coil_window] at h
    split_ifs at h with h1 h2
    · simp only [Res.ret.injEq] at h
      rw [← h.2]
      rcases hpin with rfl | rfl
      · rw [stop_signal_on_OUT]; exact bit0_after_set _
      · rw [stop_signal_off_OUT]; exact bit0_after_set _
    · exact ih _ _ h
    · simp at h

theorem relay_enable_released (env : Env) (fuel : Nat) (m : Machine) :
    (relay_enable env fuel m).at_return (fun m1 => m1.OUT &&& 1 = 1) := by
  unfold relay_enable
  simp only []
  split
  · simp [Res.at_return]
  · next s m1 h1 => exact coil_window_released _ _ _ _ _ _ _ _ (Or.inr rfl) h1
  · split
    · simp [Res.at_return]
    · next s m1 h1 => exact coil_window_released _ _ _ _ _ _ _ _ (Or.inl rfl) h1
    · split_ifs
      · simp only [Res.at_return, stop_signal_on_OUT]; exact bit0_after_set _
      · simp only [Res.at_return, stop_signal_on_OUT]; exact bit0_after_set _

theorem relay_disable_released (env : Env) (fuel : Nat) (m : Machine) :
    (relay_disable env fuel m).at_return (fun m1 => m1.OUT &&& 1 = 1) := by
  unfold relay_disable
  simp only []
  split
  · simp [Res.at_return]
  · next s m1 h1 => exact coil_window_released _ _ _ _ _ _ _ _ (Or.inl rfl) h1
  · split
    · simp [Res.at_return]
    · next s m1 h1 => exact coil_window_released _ _ _ _ _ _ _ _ (Or.inr rfl) h1
    · simp only [Res.at_return, stop_signal_off_OUT]; exact bit0_after_set _

theorem at_return_mono {α : Type} {r : Res α} {P Q : Machine → Prop} (h : r.at_return P)
    (hPQ : ∀ m, P m → Q m) : r.at_return Q := by
  cases r with
  | ret a m => exact hPQ m h
  | spin m => trivial

theorem probation_loop_ends (env : Env) (tic toc : Int) (fuel : Nat) (m m1 : Machine)
    (h : probation_loop env tic toc fuel m = .ret none m1) :
    (get_time_diff env tic toc).lt PROBATION_TIME = false := by
  induction fuel generalizing m with
  | zero => simp [probation_loop] at h
  | succ fuel ih =>
    simp only [probation_loop, enable_poll, Bool.not_true, Bool.false_eq_true, if_false] at h
    split_ifs at h with h1 h2
    · simp at h
    · exact ih _ h
    · simpa using h1

theorem probationary_completes_only_stale (env : Env) (fuel : Nat) (m m1 : Machine)
    (h : probationary_relay_on env fuel m = .ret RELAY_ON m1) :
    (get_time_diff env (env.clock m.clocks) (env.clock (m.clocks + 1))).lt PROBATION_TIME =
      false := by
  unfold probationary_relay_on at h
  simp only [clock_eq, advance_clocks, Nat.add_zero] at h
  split at h
  · simp at h
  · next s m2 h2 =>
    have := probation_loop_returns _ _ _ _ _ _ _ h2
    simp only [Res.ret.injEq] at h
    rw [this] at h
    exact absurd h.1 (by decide)
  · next m2 h2 => exact probation_loop_ends _ _ _ _ _ _ h2

/-! ## The coupling of state and counter -/

theorem relay_enable_exit (env : Env) (fuel : Nat) (m m1 : Machine) (s : State)
    (h : relay_enable env fuel m = .ret s m1) :
    s = SOFT_GROUND_FAULT ∨ (s = RELAY_ON ∧ m1.fault_count = 0) ∨
      (s = PROBATIONARY_RELAY_ON ∧ m1.fault_count ≠ 0) := by
  unfold relay_enable at h
  simp only [] at h
  split at h
  · simp at h
  · next s1 m2 h1 =>
    simp only [Res.ret.injEq] at h
    rw [← h.1]
    exact Or.inl (coil_window_returns _ _ _ _ _ _ _ _ h1)
  · split at h
    · simp at h
    · next s1 m2 h1 =>
      simp only [Res.ret.injEq] at h
      rw [← h.1]
      exact Or.inl (coil_window_returns _ _ _ _ _ _ _ _ h1)
    · split_ifs at h with h0
      · simp only [Res.ret.injEq] at h
        rw [← h.1, ← h.2]
        exact Or.inr (Or.inl ⟨rfl, h0⟩)
      · simp only [Res.ret.injEq] at h
        rw [← h.1, ← h.2]
        exact Or.inr (Or.inr ⟨rfl, h0⟩)

theorem probationary_exit (env : Env) (fuel : Nat) (m m1 : Machine) (s : State)
    (h : probationary_relay_on env fuel m = .ret s m1) :
    s = SOFT_GROUND_FAULT ∨ (s = RELAY_ON ∧ m1.fault_count = 0) := by
  unfold probationary_relay_on at h
  simp only [] at h
  split at h
  · simp at h
  · next s1 m2 h1 =>
    simp only [Res.ret.injEq] at h
    rw [← h.1]
    exact Or.inl (probation_loop_returns _ _ _ _ _ _ _ h1)
  · simp only [Res.ret.injEq] at h
    rw [← h.1, ← h.2]
    exact Or.inr ⟨rfl, rfl⟩

theorem probationary_spin (env : Env) (fuel : Nat) (m m1 : Machine)
    (h : probationary_relay_on env fuel m = .spin m1) : m1.fault_count = m.fault_count := by
  unfold probationary_relay_on at h
  simp only [] at h
  split at h
  · next m2 h1 =>
    simp only [Res.spin.injEq] at h
    rw [← h]
    simpa [Res.machine, clock] using probation_loop_fault_count_of_eq h1
  · simp at h
  · simp at h

theorem assign_machine (current_state : State) (r : Res State) :
    (assign current_state r).machine = r.machine := by
  cases r <;> rfl

theorem dispatch_coupled (env : Env) (fuel : Nat) (current_state : Nat) (m : Machine)
    (h : coupled current_state m) : (dispatch env fuel current_state m).is_coupled := by
  obtain ⟨h0, h1⟩ := h
  unfold dispatch
  simp only [START, RELAY_OFF, RELAY_ENABLE, RELAY_ON, RELAY_DISABLE, SOFT_GROUND_FAULT,
    HARD_GROUND_FAULT, PROBATIONARY_RELAY_ON, State] at h0 h1 ⊢
  split_ifs with c0 c1 c2 c3 c4 c5 c6 c7
  · simp [start, Run.is_coupled, coupled]
  · cases fuel with
    | zero => simp [relay_off, assign, Run.is_coupled, coupled, c1]
    | succ f => simp [relay_off_eq, assign, Run.is_coupled, coupled]
  · cases hr : relay_enable env fuel m with
    | spin m1 => simp [assign, Run.is_coupled, coupled, c2]
    | ret s m1 =>
      rcases relay_enable_exit env fuel m m1 s hr with rfl | ⟨rfl, hz⟩ | ⟨rfl, hz⟩
      · simp [assign, Run.is_coupled, coupled]
      · simp [assign, Run.is_coupled, coupled, hz]
      · simp only [assign, Run.is_coupled, coupled]
        exact ⟨fun hc => by rcases hc with hc | hc <;> exact absurd hc (by decide),
          fun _ => Nat.pos_of_ne_zero hz⟩
  · have hz := h0 (Or.inl c3)
    have hfc := relay_on_fault_count env fuel m
    have hret := relay_on_returns env fuel m
    cases hr : relay_on env fuel m with
    | spin m1 =>
      rw [hr] at hfc
      simp only [Res.machine] at hfc
      simp [assign, Run.is_coupled, coupled, c3, hfc, hz]
    | ret s m1 =>
      rw [hr] at hret
      simp only [Res.returns_in, List.mem_singleton] at hret
      subst hret
      simp [assign, Run.is_coupled, coupled]
  · have hz := h0 (Or.inr c4)
    have hfc := relay_disable_fault_count env fuel m
    have hret := relay_disable_returns env fuel m
    cases hr : relay_disable env fuel m with
    | spin m1 =>
      rw [hr] at hfc
      simp only [Res.machine] at hfc
      simp [assign, Run.is_coupled, coupled, c4, hfc, hz]
    | ret s m1 =>
      rw [hr] at hret
      simp only [Res.returns_in, List.mem_cons, List.mem_singleton, List.not_mem_nil,
        or_false] at hret
      rcases hret with rfl | rfl <;> simp [assign, Run.is_coupled, coupled]
  · have hret := soft_ground_fault_returns env fuel m
    cases hr : soft_ground_fault env fuel m with
    | spin m1 => simp [assign, Run.is_coupled, coupled, c5]
    | ret s m1 =>
      rw [hr] at hret
      simp only [Res.returns_in, List.mem_cons, List.mem_singleton, List.not_mem_nil,
        or_false] at hret
      rcases hret with rfl | rfl <;> simp [assign, Run.is_coupled, coupled]
  · simp [hard_ground_fault_eq, Run.is_coupled, coupled, c6]
  · have hp := h1 c7
    cases hr : probationary_relay_on env fuel m with
    | spin m1 =>
      have := probationary_spin env fuel m m1 hr
      simp only [assign, Run.is_coupled, coupled, c7]
      exact ⟨fun hc => by rcases hc with hc | hc <;> exact absurd hc (by decide),
        fun _ => by omega⟩
    | ret s m1 =>
      rcases probationary_exit env fuel m m1 s hr with rfl | ⟨rfl, hz⟩
      · simp [assign, Run.is_coupled, coupled]
      · simp [assign, Run.is_coupled, coupled, hz]
  · trivial

theorem state_machine_from_coupled (env : Env) (fuel n : Nat) (current_state : State)
    (m : Machine) (h : coupled current_state m) :
    (state_machine_from env fuel n current_state m).is_coupled := by
  induction n generalizing current_state m with
  | zero => simpa [state_machine_from, Run.is_coupled] using h
  | succ n ih =>
    have hd := dispatch_coupled env fuel current_state m h
    simp only [state_machine_from]
    cases hr : dispatch env fuel current_state m with
    | head s m1 => rw [hr] at hd; exact ih _ _ hd
    | inside s m1 => rw [hr] at hd; exact hd
    | exited m1 => trivial

theorem coupled_start (m : Machine) : coupled START m :=
  ⟨fun h => by rcases h with h | h <;> exact absurd h (by decide),
    fun h => absurd h (by decide)⟩

/-! ## The counter along one dispatch -/

theorem dispatch_fault_count (env : Env) (fuel : Nat) (current_state : Nat) (m : Machine)
    (h : (Run.head current_state m).inv) :
    (current_state = SOFT_GROUND_FAULT →
      (dispatch env fuel current_state m).machine.fault_count = m.fault_count + 1) ∧
    (current_state = START ∨ current_state = PROBATIONARY_RELAY_ON ∨
      m.fault_count ≤ (dispatch env fuel current_state m).machine.fault_count) := by
  obtain ⟨h7, hle, hlt⟩ := h
  simp only [FAULT_LIMIT, HARD_GROUND_FAULT] at hle hlt
  unfold dispatch
  simp only [START, RELAY_OFF, RELAY_ENABLE, RELAY_ON, RELAY_DISABLE, SOFT_GROUND_FAULT,
    HARD_GROUND_FAULT, PROBATIONARY_RELAY_ON, State] at h7 hlt ⊢
  split_ifs with c0 c1 c2 c3 c4 c5 c6 c7
  · exact ⟨fun hc => by omega, Or.inl c0⟩
  · rw [assign_machine, relay_off_fault_count]
    exact ⟨fun hc => by omega, Or.inr (Or.inr (Nat.le_refl _))⟩
  · rw [assign_machine, relay_enable_fault_count]
    exact ⟨fun hc => by omega, Or.inr (Or.inr (Nat.le_refl _))⟩
  · rw [assign_machine, relay_on_fault_count]
    exact ⟨fun hc => by omega, Or.inr (Or.inr (Nat.le_refl _))⟩
  · rw [assign_machine, relay_disable_fault_count]
    exact ⟨fun hc => by omega, Or.inr (Or.inr (Nat.le_refl _))⟩
  · have hm := hlt (by omega)
    have hmod : (m.fault_count + 1) % 256 = m.fault_count + 1 := by omega
    rw [assign_machine, soft_ground_fault_fault_count, hmod]
    exact ⟨fun _ => rfl, Or.inr (Or.inr (Nat.le_succ _))⟩
  · simp only [hard_ground_fault_eq, Run.machine]
    exact ⟨fun hc => by omega, Or.inr (Or.inr (Nat.le_refl _))⟩
  · exact ⟨fun hc => by omega, Or.inr (Or.inl c7)⟩
  · omega

/-! ## The ground-fault poll does not consult the ground-fault line -/

theorem gfi_poll_eq (env : Env) (r v : Nat) :
    gfi_poll env r v = decide (env.portIn r % 256 &&& env.vaJunk v % 256 = 0) := by
  simp [gfi_poll, is_high, GFI_PIN, c_lt, is_high_loop, read_port, va_arg, zero_machine]

theorem blind_gfi_poll (port : Nat → Nat) (clk : Nat → Int) (cps r v : Nat) :
    gfi_poll (blind_trace port clk cps) r v = true := by
  simp [gfi_poll_eq, blind_trace]

theorem soft_ground_fault_below (env : Env) (fuel : Nat) (m : Machine)
    (h : m.fault_count + 1 < 20) :
    (soft_ground_fault env fuel m).returns_in [RELAY_ENABLE] := by
  have hmod : (m.fault_count + 1) % 256 = m.fault_count + 1 := by omega
  have hnot : ¬ (((m.fault_count + 1) % 256 : Nat) : Int) ≥ FAULT_LIMIT := by
    rw [hmod]; simp only [FAULT_LIMIT]; omega
  unfold soft_ground_fault
  simp only [hnot, if_false]
  split <;> simp [Res.returns_in]

/-- C1: in every configuration that `state_machine` reaches from `START`, at the head of the
dispatcher loop or inside a handler, for every input trace and every fuel, `fault_count` is at most
`FAULT_LIMIT` (it is a natural number, so at least 0); and whenever `soft_ground_fault` is about to
be entered, the 8-bit increment `fault_count++` equals the mathematical increment, that is, it
does not wrap. -/
theorem fault_count_within_limit (env : Env) (fuel n : Nat) (regs : Machine) :
    ((state_machine env fuel n regs).machine.fault_count : Int) ≤ FAULT_LIMIT ∧
    ((state_machine env fuel n regs).at_head = some SOFT_GROUND_FAULT →
      ((state_machine env fuel n regs).machine.fault_count + 1) % 256 =
        (state_machine env fuel n regs).machine.fault_count + 1) := by
  have h := state_machine_inv env fuel n regs
  cases hr : state_machine env fuel n regs with
  | head s m =>
    rw [hr] at h
    obtain ⟨_, hle, hlt⟩ := h
    refine ⟨hle, fun hs => ?_⟩
    simp only [Run.at_head, Option.some.injEq] at hs
    have := hlt (by rw [hs]; decide)
    simp only [FAULT_LIMIT, Run.machine] at this ⊢
    omega
  | inside s m =>
    rw [hr] at h
    exact ⟨h, fun hs => by simp [Run.at_head] at hs⟩
  | exited m => rw [hr] at h; exact h.elim

set_option maxRecDepth 4000 in
/-- Witness for C1: on `fault_trace` the third dispatch ends at the head of the loop with
`current_state = SOFT_GROUND_FAULT`, and the increment there does not wrap. -/
theorem fault_count_within_limit_witness :
    (state_machine fault_trace 5 3 zero_machine).at_head = some SOFT_GROUND_FAULT ∧
    ((state_machine fault_trace 5 3 zero_machine).machine.fault_count + 1) % 256 =
      (state_machine fault_trace 5 3 zero_machine).machine.fault_count + 1 :=
  ⟨by decide, (fault_count_within_limit fault_trace 5 3 zero_machine).2 (by decide)⟩

/-- C2: `HARD_GROUND_FAULT` is terminal.  `hard_ground_fault` never returns, whatever the fuel;
and from `current_state = HARD_GROUND_FAULT`, for every number `n` of further dispatches, every
input trace and every fuel, the state is still `HARD_GROUND_FAULT` and the machine, `fault_count`
included, is unchanged. -/
theorem hard_ground_fault_terminal (env : Env) (fuel n : Nat) (m : Machine) :
    hard_ground_fault fuel m = .spin m ∧
    (state_machine_from env fuel n HARD_GROUND_FAULT m).state = some HARD_GROUND_FAULT ∧
    (state_machine_from env fuel n HARD_GROUND_FAULT m).machine = m ∧
    (state_machine_from env fuel n HARD_GROUND_FAULT m).machine.fault_count = m.fault_count := by
  refine ⟨hard_ground_fault_eq fuel m, ?_⟩
  cases n with
  | zero => simp [state_machine_from, Run.state, Run.machine]
  | succ n =>
    simp [state_machine_from, dispatch, hard_ground_fault_eq, Run.state, Run.machine]

/-- C3: every handler returns, when it returns, only a successor that the transition table
allows, for every input trace, fuel and machine state; and `state_machine`, started at `START`,
never leaves through the final `else` of the dispatcher. -/
theorem handlers_stay_in_table (env : Env) (fuel n : Nat) (m regs : Machine) :
    (start env m).1 = RELAY_OFF ∧
    (relay_off env fuel m).returns_in [RELAY_ENABLE] ∧
    (relay_enable env fuel m).returns_in
      [SOFT_GROUND_FAULT, RELAY_ON, PROBATIONARY_RELAY_ON] ∧
    (relay_on env fuel m).returns_in [SOFT_GROUND_FAULT, RELAY_DISABLE] ∧
    (relay_disable env fuel m).returns_in [SOFT_GROUND_FAULT, RELAY_OFF] ∧
    (soft_ground_fault env fuel m).returns_in [HARD_GROUND_FAULT, RELAY_ENABLE] ∧
    (probationary_relay_on env fuel m).returns_in
      [RELAY_DISABLE, SOFT_GROUND_FAULT, RELAY_ON] ∧
    (state_machine env fuel n regs).not_exited := by
  refine ⟨rfl, relay_off_returns env fuel m, relay_enable_returns env fuel m,
    returns_in_mono (relay_on_returns env fuel m) (by decide),
    relay_disable_returns env fuel m, soft_ground_fault_returns env fuel m,
    returns_in_mono (probationary_relay_on_returns env fuel m) (by decide), ?_⟩
  have h := state_machine_inv env fuel n regs
  cases hr : state_machine env fuel n regs with
  | head s m1 => trivial
  | inside s m1 => trivial
  | exited m1 => rw [hr] at h; exact h.elim

/-- C6 (what the code does): `relay_off` does not look at the enable lines.  The poll
`is_high(OPENWRT_PIN, EBIKE_PIN)` has iteration count `OPENWRT_PIN = 0`, reads nothing and is
true, so for every input trace, those with both enable lines low included, `relay_off` returns
`RELAY_ENABLE` in its first iteration, leaving the machine untouched. -/
theorem relay_off_ignores_enables (env : Env) (junk : Nat → Nat) (clk : Nat → Int) (fuel : Nat)
    (m : Machine) :
    OPENWRT_PIN = 0 ∧
    is_high env m OPENWRT_PIN [EBIKE_PIN] = (true, m) ∧
    relay_off env (fuel + 1) m = .ret RELAY_ENABLE m ∧
    relay_off (idle_trace junk clk) (fuel + 1) m = .ret RELAY_ENABLE m :=
  ⟨rfl, rfl, relay_off_eq env fuel m, relay_off_eq _ fuel m⟩

set_option maxRecDepth 4000 in
/-- C7 (what the code does): `RELAY_OFF_PIN` and `RELAY_ON_PIN` are the same mask 1, so
`start_signal(RELAY_OFF_PIN)`, the first statement of `relay_enable`, takes the `RELAY_ON_PIN`
branch and clears the `RELAY_ON_PIN` bit of `PORTA.OUT`, which is the level `start_signal` drives,
in every machine state.  On `calm_trace`, from registers with every output bit set, the run does
visit `RELAY_OFF`, `RELAY_ENABLE` and `RELAY_ON` in this order, but while `relay_enable` is still
inside its first window `PORTA.OUT` is `0xFE`: the line of the `RELAY_ON` coil is driven before
the `RELAY_OFF` coil is released. -/
theorem scenario_B_coils_coincide :
    RELAY_OFF_PIN = RELAY_ON_PIN ∧
    (∀ m, start_signal RELAY_OFF_PIN m = start_signal RELAY_ON_PIN m) ∧
    (∀ m, (start_signal RELAY_OFF_PIN m).OUT &&& RELAY_ON_PIN = 0) ∧
    (state_machine calm_trace 4 1 { zero_machine with OUT := 0xFF }).at_head = some RELAY_OFF ∧
    (state_machine calm_trace 4 2 { zero_machine with OUT := 0xFF }).at_head =
      some RELAY_ENABLE ∧
    (state_machine calm_trace 4 3 { zero_machine with OUT := 0xFF }).at_head = some RELAY_ON ∧
    (state_machine calm_trace 1 3 { zero_machine with OUT := 0xFF }).state = some RELAY_ENABLE ∧
    (state_machine calm_trace 1 3 { zero_machine with OUT := 0xFF }).machine.OUT = 0xFE ∧
    (state_machine calm_trace 1 3 { zero_machine with OUT := 0xFF }).machine.OUT &&&
      RELAY_ON_PIN = 0 := by
  refine ⟨rfl, fun _ => rfl, fun m => ?_, by decide, by decide, by decide, by decide, by decide,
    by decide⟩
  have h : (start_signal RELAY_OFF_PIN m).OUT = (m.OUT % 256) &&& 254 := rfl
  have h1 : (254 : Nat) &&& RELAY_ON_PIN = 0 := by decide
  rw [h, Nat.land_assoc, h1, Nat.and_zero]

/-- C9 (what the code does): `relay_on` never returns `RELAY_DISABLE`, on any input trace; and on
the traces where both enable lines always read low it returns `SOFT_GROUND_FAULT` after its
first poll.  That poll is `is_high(GFI_PIN)` taken as a fault when it is true, the opposite of
the test `!is_high(GFI_PIN)` of the other three handlers. -/
theorem relay_on_never_disables (env : Env) (junk : Nat → Nat) (clk : Nat → Int) (fuel : Nat)
    (m : Machine) :
    (relay_on env fuel m).returns_in [SOFT_GROUND_FAULT] ∧
    relay_on (idle_trace junk clk) (fuel + 1) m = .ret SOFT_GROUND_FAULT (m.advance 1 0) ∧
    relay_on env (fuel + 1) m =
      (if gfi_poll env m.reads m.vareads then .ret SOFT_GROUND_FAULT (m.advance 1 0)
       else relay_on env fuel (m.advance 1 0)) := by
  refine ⟨relay_on_returns env fuel m, ?_, ?_⟩
  · simp [relay_on, enable_poll, is_high_gfi, idle_gfi_poll]
  · simp [relay_on, enable_poll, is_high_gfi]

/-- C10 (what the code does): `probationary_relay_on` never returns `RELAY_DISABLE`, on any input
trace; and on the traces where both enable lines always read low and the clock advances by one
second per reading it never returns at all, whatever the fuel, and `fault_count` keeps its
value. -/
theorem probation_never_disables (env : Env) (junk : Nat → Nat) (fuel : Nat) (m : Machine) :
    (probationary_relay_on env fuel m).returns_in [SOFT_GROUND_FAULT, RELAY_ON] ∧
    probationary_relay_on (idle_trace junk (fun k => (k : Int))) fuel m =
      .spin (m.advance fuel 2) ∧
    (m.advance fuel 2).fault_count = m.fault_count := by
  refine ⟨probationary_relay_on_returns env fuel m, ?_, rfl⟩
  have hopen : (get_time_diff (idle_trace junk (fun k => (k : Int))) (m.clocks : Int)
      ((m.clocks + 1 : Nat) : Int)).lt PROBATION_TIME = true := by
    simp only [get_time_diff, Seconds.lt, PROBATION_TIME, idle_trace, decide_eq_true_eq]
    push_cast
    omega
  have h := idle_probation_loop junk (fun k => (k : Int)) _ _ fuel (m.advance 0 2) hopen
  have h1 : probation_loop (idle_trace junk (fun k => (k : Int)))
      ((idle_trace junk (fun k => (k : Int))).clock m.clocks)
      ((idle_trace junk (fun k => (k : Int))).clock (m.clocks + 1)) fuel
      (m.advance 0 (1 + 1)) = .spin ((m.advance 0 2).advance fuel 0) := h
  simp only [probationary_relay_on, clock_eq, advance_advance, advance_clocks, Nat.zero_add,
    Nat.add_zero]
  rw [h1, advance_advance]
  simp

/-- C13 (what the code does): on a constant port value `p`, `is_high(n, p1, .., pn)` is true exactly
when every queried mask has all its bits clear in `p`, that is, when every queried pin reads LOW:
the loop sets `output = false` when `PORTA.IN & pin` is non-zero.  With port value `0xFF` the
query of the high pin `0x02` is false, and with port value `0x00` the query of the low pin `0x02`
is true. -/
theorem is_high_is_all_low (p : Nat) (args : List Nat) (m : Machine) :
    (is_high (port_trace p) m args.length args).1 =
      args.all (fun a => p % 256 &&& a % 256 == 0) ∧
    (is_high (port_trace 0xFF) zero_machine 1 [0x02]).1 = false ∧
    (is_high (port_trace 0x00) zero_machine 1 [0x02]).1 = true ∧
    (is_high (port_trace 0x05) zero_machine 2 [0x01, 0x02]).1 = false ∧
    (is_high (port_trace 0x04) zero_machine 2 [0x01, 0x02]).1 = true := by
  refine ⟨?_, by decide, by decide, by decide, by decide⟩
  simp [is_high, is_high_loop_port]

/-- C18 (what the code does): the pin constants are the values of the comparisons `1 < 0x0n`, not
of the shifts `1 << 0x0n`: `OPENWRT_PIN` is 0 and the other six are all 1, so none of them is the
mask of the bit its comment names, one is zero, and six coincide. -/
theorem pin_constants_are_comparisons :
    OPENWRT_PIN = 0 ∧ EBIKE_PIN = 1 ∧ RELAY_ON_PIN = 1 ∧ RELAY_OFF_PIN = 1 ∧ GFI_PIN = 1 ∧
    OPENWRT_STATUS_PIN = 1 ∧ EBIKE_STATUS_PIN = 1 ∧
    OPENWRT_PIN ≠ 1 <<< 1 ∧ EBIKE_PIN ≠ 1 <<< 2 ∧ RELAY_ON_PIN ≠ 1 <<< 3 ∧
    RELAY_OFF_PIN ≠ 1 <<< 4 ∧ GFI_PIN ≠ 1 <<< 5 ∧ OPENWRT_STATUS_PIN ≠ 1 <<< 6 ∧
    EBIKE_STATUS_PIN ≠ 1 <<< 7 ∧
    EBIKE_PIN = RELAY_ON_PIN ∧ RELAY_ON_PIN = RELAY_OFF_PIN ∧ RELAY_OFF_PIN = GFI_PIN ∧
    GFI_PIN = OPENWRT_STATUS_PIN ∧ OPENWRT_STATUS_PIN = EBIKE_STATUS_PIN := by
  decide

/-- C14 (what the code does): `update_status_pins` writes only bit 0 of `PORTA.OUT`, the bit of
both `OPENWRT_STATUS_PIN` and `EBIKE_STATUS_PIN`, and leaves it equal to bit 0 of the second read
of `PORTA.IN`, the bit of `EBIKE_PIN`; the test `PORTA.IN & OPENWRT_PIN` is never true since
`OPENWRT_PIN = 0`.  With port value `0xFF` and output `0x00` before, the `OPENWRT_STATUS_PIN` bit
ends set although `PORTA.IN & OPENWRT_PIN` is 0; and with port value `0x02` (only PA1 high) bit 6
of the output (PA6) stays clear. -/
theorem status_pins_follow_bit0 (env : Env) (m : Machine) :
    ((update_status_pins env m).OUT &&& OPENWRT_STATUS_PIN =
      env.portIn (m.reads + 1) % 256 &&& EBIKE_PIN) ∧
    (update_status_pins (port_trace 0xFF) zero_machine).OUT = 0x01 ∧
    (update_status_pins (port_trace 0xFF) zero_machine).OUT &&& OPENWRT_STATUS_PIN = 1 ∧
    (0xFF &&& OPENWRT_PIN = 0) ∧
    (update_status_pins (port_trace 0x02) zero_machine).OUT &&& (1 <<< 6) = 0 ∧
    (0x02 &&& (1 <<< 1) ≠ 0) := by
  refine ⟨?_, by decide, by decide, by decide, by decide, by decide⟩
  have h1 : EBIKE_PIN = 1 := rfl
  have h2 : OPENWRT_STATUS_PIN = 1 := rfl
  have key : ∀ y, y &&& 1 = 0 ∨ y &&& 1 = 1 := by
    intro y
    rw [Nat.and_one_is_mod]
    omega
  rw [update_status_pins_OUT, h1, h2]
  rcases key (env.portIn (m.reads + 1) % 256) with h | h
  · rw [if_neg (fun hc => hc h), h, bit0_after_clear]
  · rw [if_pos (by rw [h]; decide), h, bit0_after_set]

/-- C15: `update_status_pins` is idempotent on the output register: when `PORTA.IN` reads the same
value `p` at every read, applying it twice leaves the same `PORTA.OUT` as applying it once, for
every prior machine state. -/
theorem update_status_pins_idempotent (env : Env) (p : Nat) (m : Machine)
    (h : ∀ k, env.portIn k = p) :
    (update_status_pins env (update_status_pins env m)).OUT = (update_status_pins env m).OUT := by
  rw [update_status_pins_OUT env (update_status_pins env m), update_status_pins_OUT env m]
  simp only [h]
  have := status_update_idem (decide (p % 256 &&& 1 ≠ 0)) m.OUT
  simpa using this

/-- Witness for C15: on `port_trace 0xFF`, from the zero machine, the output register is `0x01`
after one application and after two. -/
theorem update_status_pins_idempotent_witness :
    (∀ k, (port_trace 0xFF).portIn k = 0xFF) ∧
    (update_status_pins (port_trace 0xFF) (update_status_pins (port_trace 0xFF) zero_machine)).OUT =
      (update_status_pins (port_trace 0xFF) zero_machine).OUT ∧
    (update_status_pins (port_trace 0xFF) zero_machine).OUT = 0x01 :=
  ⟨fun _ => rfl,
    update_status_pins_idempotent (port_trace 0xFF) 0xFF zero_machine (fun _ => rfl), by decide⟩

/-- C11 (what the code does): the loop of `probationary_relay_on` never re-reads the clock, so
`toc` keeps the reading taken at entry.  On every trace the handler either does not return
`RELAY_ON` or its first two consecutive clock readings are already `PROBATION_TIME` apart.  On `calm_trace` the
enable poll holds, no poll reports a ground fault and the clock is ten seconds past the entry
reading after 200 further readings, yet `probationary_relay_on` never returns, whatever the fuel,
and `fault_count` keeps its value. -/
theorem probation_never_completes (env : Env) (fuel : Nat) (m : Machine) :
    ((probationary_relay_on env fuel m).returns_in [SOFT_GROUND_FAULT] ∨
      (get_time_diff env (env.clock m.clocks) (env.clock (m.clocks + 1))).lt PROBATION_TIME =
        false) ∧
    (∀ m1, is_high calm_trace m1 OPENWRT_PIN [EBIKE_PIN] = (true, m1)) ∧
    (∀ r v, gfi_poll calm_trace r v = true) ∧
    (get_time_diff calm_trace (calm_trace.clock m.clocks)
      (calm_trace.clock (m.clocks + 200))).lt PROBATION_TIME = false ∧
    probationary_relay_on calm_trace fuel m = .spin (m.advance fuel 2) ∧
    (m.advance fuel 2).fault_count = m.fault_count := by
  refine ⟨?_, fun _ => rfl, calm_gfi_poll, ?_, ?_, rfl⟩
  · cases h : probationary_relay_on env fuel m with
    | spin m1 => exact Or.inl trivial
    | ret s m1 =>
      have hr := probationary_relay_on_returns env fuel m
      rw [h] at hr
      simp only [Res.returns_in, List.mem_cons, List.mem_singleton, List.not_mem_nil,
        or_false] at hr
      simp only [Res.returns_in, List.mem_singleton]
      rcases hr with rfl | rfl
      · exact Or.inl rfl
      · exact Or.inr (probationary_completes_only_stale env fuel m m1 h)
  · simp only [get_time_diff, Seconds.lt, PROBATION_TIME, calm_trace, decide_eq_false_iff_not]
    push_cast
    omega
  · have hopen : (get_time_diff calm_trace (calm_trace.clock m.clocks)
        (calm_trace.clock (m.clocks + 1))).lt PROBATION_TIME = true := by
      simp only [get_time_diff, Seconds.lt, PROBATION_TIME, calm_trace, decide_eq_true_eq]
      push_cast
      omega
    have h := probation_loop_stale calm_trace _ _ fuel (m.advance 0 2) hopen calm_gfi_poll
    simp only [probationary_relay_on, clock_eq, advance_advance, advance_clocks, Nat.zero_add,
      Nat.add_zero]
    rw [h, advance_advance]
    simp

set_option maxRecDepth 4000 in
/-- C16 (what the code does): at every return of `relay_enable` and of `relay_disable` the bits of
`RELAY_ON_PIN` and of `RELAY_OFF_PIN` in `PORTA.OUT` are set, which is the level `stop_signal`
drives, for every trace, fuel and machine state.  But the two masks are the same bit, so the first
statement of either handler already drives the line of the coil that comes second; on
`fault_trace`, from an output register with every bit set, `relay_enable` returns through the
fault of its first window, and at the head of that window `PORTA.OUT` is `0xFE`. -/
theorem coils_at_return (env : Env) (fuel : Nat) (m : Machine) :
    (relay_enable env fuel m).at_return (fun m1 =>
      m1.OUT &&& RELAY_ON_PIN = RELAY_ON_PIN ∧ m1.OUT &&& RELAY_OFF_PIN = RELAY_OFF_PIN) ∧
    (relay_disable env fuel m).at_return (fun m1 =>
      m1.OUT &&& RELAY_ON_PIN = RELAY_ON_PIN ∧ m1.OUT &&& RELAY_OFF_PIN = RELAY_OFF_PIN) ∧
    (start_signal RELAY_OFF_PIN m).OUT &&& RELAY_ON_PIN = 0 ∧
    (start_signal RELAY_ON_PIN m).OUT &&& RELAY_OFF_PIN = 0 ∧
    window_fault fault_trace 0 0 0 0 ∧
    relay_enable fault_trace 1 { zero_machine with OUT := 0xFF } =
      .ret SOFT_GROUND_FAULT ⟨0, 0xFF, 0, 0, 0, 0, 0, 1, 2, 1⟩ ∧
    relay_enable fault_trace 0 { zero_machine with OUT := 0xFF } =
      .spin ⟨0, 0xFE, 0, 0, 0, 0, 0, 0, 2, 0⟩ ∧
    (0xFE &&& RELAY_ON_PIN = 0) := by
  refine ⟨at_return_mono (relay_enable_released env fuel m) (fun _ h => ⟨h, h⟩),
    at_return_mono (relay_disable_released env fuel m) (fun _ h => ⟨h, h⟩),
    ?_, ?_, by unfold window_fault; decide, by decide, by decide, by decide⟩
  · rw [start_signal_off_OUT]; exact bit0_after_clear _
  · rw [start_signal_on_OUT]; exact bit0_after_clear _

/-- C20 (what the code does): `relay_on` returns `SOFT_GROUND_FAULT` when the poll
`is_high(GFI_PIN)` is true, while the coil windows of `relay_enable` and `relay_disable` and the
loop of `probationary_relay_on` return it when the same poll is false.  So with `PORTA.IN`
reading `0x00`, `relay_on` reports a fault at its first poll and the other three never do; and on
`steady_fault_trace` (port `0xFF`) `relay_on` never reports one while `relay_enable` does. -/
theorem gfi_polarity_differs (env : Env) (junk : Nat → Nat) (clk : Nat → Int) (pin : Nat)
    (tic toc : Int) (fuel : Nat) (m : Machine) :
    relay_on env 1 m =
      (if gfi_poll env m.reads m.vareads then .ret SOFT_GROUND_FAULT (m.advance 1 0)
       else .spin (m.advance 1 0)) ∧
    coil_window env pin tic 1 toc m =
      (if (get_time_diff env tic toc).lt RELAY_POWER_TIME then
        (if gfi_poll env m.reads m.vareads then .spin (m.advance 1 1)
         else .ret (some SOFT_GROUND_FAULT) (stop_signal pin (m.advance 1 0)))
       else .ret none m) ∧
    probation_loop env tic toc 1 m =
      (if (get_time_diff env tic toc).lt PROBATION_TIME then
        (if gfi_poll env m.reads m.vareads then .spin (m.advance 1 0)
         else .ret (some SOFT_GROUND_FAULT) (m.advance 1 0))
       else .ret none m) ∧
    relay_on (idle_trace junk clk) (fuel + 1) m = .ret SOFT_GROUND_FAULT (m.advance 1 0) ∧
    (relay_enable (idle_trace junk clk) fuel m).returns_in [RELAY_ON, PROBATIONARY_RELAY_ON] ∧
    (relay_disable (idle_trace junk clk) fuel m).returns_in [RELAY_OFF] ∧
    (probationary_relay_on (idle_trace junk clk) fuel m).returns_in [RELAY_ON] ∧
    relay_on steady_fault_trace fuel m = .spin (m.advance fuel 0) ∧
    (∃ m1, relay_enable steady_fault_trace 150 m = .ret SOFT_GROUND_FAULT m1) := by
  refine ⟨?_, ?_, ?_, ?_, relay_enable_clean_polls _ fuel m (idle_gfi_poll junk clk),
    relay_disable_clean_polls _ fuel m (idle_gfi_poll junk clk),
    probationary_clean_polls _ fuel m (idle_gfi_poll junk clk),
    relay_on_fault_polls _ fuel m steady_fault_gfi_poll, ?_⟩
  · simp only [relay_on, enable_poll, is_high_gfi, if_true]
  · simp only [coil_window, is_high_gfi, clock_eq, advance_advance]
    split_ifs <;> simp_all
  · simp only [probation_loop, enable_poll, is_high_gfi, Bool.not_true, Bool.false_eq_true,
      if_false]
    split_ifs <;> simp_all
  · simp [relay_on, enable_poll, is_high_gfi, idle_gfi_poll]
  · obtain ⟨m1, h1, _⟩ := relay_enable_sees_fault steady_fault_trace 150 m
      (steady_fault_sees_fault m)
    exact ⟨m1, h1⟩

/-- C17: for every input trace, fuel and machine state, `relay_off`, `relay_enable`, `relay_on`
and `hard_ground_fault` leave `fault_count` unchanged and `soft_ground_fault` makes it
`(fault_count + 1) % 256`, which is `fault_count + 1` below 255 and in particular at every entry
of `soft_ground_fault` in a run from `START`; and along a run from `START` a dispatch that is
neither `start` nor `probationary_relay_on` never decreases `fault_count`. -/
theorem fault_count_frame (env : Env) (fuel n : Nat) (m regs : Machine) :
    (relay_off env fuel m).machine.fault_count = m.fault_count ∧
    (relay_enable env fuel m).machine.fault_count = m.fault_count ∧
    (relay_on env fuel m).machine.fault_count = m.fault_count ∧
    (hard_ground_fault fuel m).machine.fault_count = m.fault_count ∧
    (soft_ground_fault env fuel m).machine.fault_count = (m.fault_count + 1) % 256 ∧
    (m.fault_count < 255 →
      (soft_ground_fault env fuel m).machine.fault_count = m.fault_count + 1) ∧
    ((state_machine env fuel n regs).at_head = some SOFT_GROUND_FAULT →
      (state_machine env fuel (n + 1) regs).machine.fault_count =
        (state_machine env fuel n regs).machine.fault_count + 1) ∧
    ((state_machine env fuel n regs).at_head = some START ∨
      (state_machine env fuel n regs).at_head = some PROBATIONARY_RELAY_ON ∨
      (state_machine env fuel n regs).machine.fault_count ≤
        (state_machine env fuel (n + 1) regs).machine.fault_count) := by
  refine ⟨relay_off_fault_count env fuel m, relay_enable_fault_count env fuel m,
    relay_on_fault_count env fuel m, by rw [hard_ground_fault_eq]; rfl,
    soft_ground_fault_fault_count env fuel m, fun h => ?_, ?_⟩
  · rw [soft_ground_fault_fault_count]; omega
  · have hinv := state_machine_inv env fuel n regs
    cases hr : state_machine env fuel n regs with
    | head s m1 =>
      rw [hr] at hinv
      have hd := dispatch_fault_count env fuel s m1 hinv
      rw [state_machine_succ env fuel n regs s m1 hr]
      simp only [Run.at_head, Run.machine, Option.some.injEq]
      exact hd
    | inside s m1 =>
      have := state_machine_stuck env fuel n regs s m1 hr 1
      rw [this]
      exact ⟨fun h => by simp [Run.at_head] at h, Or.inr (Or.inr (Nat.le_refl _))⟩
    | exited m1 => rw [hr] at hinv; exact hinv.elim

set_option maxRecDepth 4000 in
/-- Witness for C17: from the zero machine `soft_ground_fault` makes the counter 1, and on
`fault_trace` the run is at `SOFT_GROUND_FAULT` after three dispatches and the fourth adds one to
the counter. -/
theorem fault_count_frame_witness :
    zero_machine.fault_count < 255 ∧
    (soft_ground_fault fault_trace 5 zero_machine).machine.fault_count =
      zero_machine.fault_count + 1 ∧
    (state_machine fault_trace 5 3 zero_machine).at_head = some SOFT_GROUND_FAULT ∧
    (state_machine fault_trace 5 (3 + 1) zero_machine).machine.fault_count =
      (state_machine fault_trace 5 3 zero_machine).machine.fault_count + 1 :=
  ⟨by decide,
    (fault_count_frame fault_trace 5 3 zero_machine zero_machine).2.2.2.2.2.1 (by decide),
    by decide,
    (fault_count_frame fault_trace 5 3 zero_machine zero_machine).2.2.2.2.2.2.1 (by decide)⟩

/-- C19: in every configuration that `state_machine` reaches from `START`, for every input trace
and fuel, `fault_count = 0` when the current state is `RELAY_ON` or `RELAY_DISABLE` (at the head of
the dispatcher loop or inside the handler), and `1 <= fault_count < FAULT_LIMIT` when the run is
at the head of the loop about to enter `probationary_relay_on`. -/
theorem state_counter_coupling (env : Env) (fuel n : Nat) (regs : Machine) :
    ((state_machine env fuel n regs).state = some RELAY_ON ∨
      (state_machine env fuel n regs).state = some RELAY_DISABLE →
        (state_machine env fuel n regs).machine.fault_count = 0) ∧
    ((state_machine env fuel n regs).at_head = some PROBATIONARY_RELAY_ON →
      1 ≤ (state_machine env fuel n regs).machine.fault_count ∧
      ((state_machine env fuel n regs).machine.fault_count : Int) < FAULT_LIMIT) := by
  have hinv := state_machine_inv env fuel n regs
  have hcp : (state_machine env fuel n regs).is_coupled :=
    state_machine_from_coupled env fuel n START (power_on regs) (coupled_start _)
  cases hr : state_machine env fuel n regs with
  | head s m1 =>
    rw [hr] at hinv hcp
    simp only [Run.state, Run.at_head, Run.machine, Option.some.injEq]
    refine ⟨hcp.1, fun hs => ⟨hcp.2 hs, hinv.2.2 (by rw [hs]; decide)⟩⟩
  | inside s m1 =>
    rw [hr] at hcp
    simp only [Run.state, Run.at_head, Run.machine, Option.some.injEq]
    exact ⟨hcp.1, fun hs => by simp at hs⟩
  | exited m1 => rw [hr] at hinv; exact hinv.elim

set_option maxRecDepth 4000 in
/-- Witness for C19: on `calm_trace` the run is at `RELAY_ON` after three dispatches, with
`fault_count = 0`; on `recover_trace` it is about to enter `probationary_relay_on` after five,
with `fault_count` between 1 and 19. -/
theorem state_counter_coupling_witness :
    (state_machine calm_trace 4 3 zero_machine).state = some RELAY_ON ∧
    (state_machine calm_trace 4 3 zero_machine).machine.fault_count = 0 ∧
    (state_machine recover_trace 4 5 zero_machine).at_head = some PROBATIONARY_RELAY_ON ∧
    1 ≤ (state_machine recover_trace 4 5 zero_machine).machine.fault_count ∧
    ((state_machine recover_trace 4 5 zero_machine).machine.fault_count : Int) < FAULT_LIMIT :=
  ⟨by decide,
    (state_counter_coupling calm_trace 4 3 zero_machine).1 (Or.inl (by decide)),
    by decide,
    (state_counter_coupling recover_trace 4 5 zero_machine).2 (by decide)⟩

set_option maxRecDepth 4000 in
/-- C5 (what the code does): the poll of `relay_enable` is true exactly when `PORTA.IN` and the
out-of-range `va_arg` read have no common bit; `GFI_PIN` is used as the count, never as a mask.
On every trace where that read yields 0, whatever `PORTA.IN` reads, `relay_enable` never returns
`SOFT_GROUND_FAULT`; with `PORTA.IN` reading `0x20`, `0xFF` or `0xDF` at every read and each
window open for one poll, it returns `RELAY_ON`.  The second half of the scenario holds: from
`fault_count = 0`, `soft_ground_fault` makes the counter 1 and can only return `RELAY_ENABLE`. -/
theorem asserted_fault_not_polled (env : Env) (port : Nat → Nat) (clk : Nat → Int)
    (cps fuel r v : Nat) (m : Machine) :
    gfi_poll env r v = decide (env.portIn r % 256 &&& env.vaJunk v % 256 = 0) ∧
    (relay_enable (blind_trace port clk cps) fuel m).returns_in
      [RELAY_ON, PROBATIONARY_RELAY_ON] ∧
    relay_enable (blind_trace (fun _ => 0x20) (fun k => (k : Int)) 8) 4 zero_machine =
      .ret RELAY_ON ⟨0, 1, 0, 0, 0, 0, 0, 2, 6, 2⟩ ∧
    relay_enable (blind_trace (fun _ => 0xFF) (fun k => (k : Int)) 8) 4 zero_machine =
      .ret RELAY_ON ⟨0, 1, 0, 0, 0, 0, 0, 2, 6, 2⟩ ∧
    relay_enable (blind_trace (fun _ => 0xDF) (fun k => (k : Int)) 8) 4 zero_machine =
      .ret RELAY_ON ⟨0, 1, 0, 0, 0, 0, 0, 2, 6, 2⟩ ∧
    (soft_ground_fault env fuel { m with fault_count := 0 }).machine.fault_count = 1 ∧
    (soft_ground_fault env fuel { m with fault_count := 0 }).returns_in [RELAY_ENABLE] := by
  refine ⟨gfi_poll_eq env r v, relay_enable_clean_polls _ fuel m (blind_gfi_poll port clk cps),
    by decide, by decide, by decide, ?_,
    soft_ground_fault_below env fuel _ (show 0 + 1 < 20 by decide)⟩
  rw [soft_ground_fault_fault_count]
  rfl

end RelayController
